import Mathlib

/-!
# OrionCommLinux.c : the Linux transport layer of the Orion SDK

A shallow embedding of `src/Communications/OrionCommLinux.c` and the proofs of ten
properties of it.

## The embedding

The C file keeps three pieces of static state (`Handle`, the `SockAddr` buffer of
`GetSockAddr`, the `Pkt` parse buffer of `OrionCommReceive`) and talks to the operating
system through system calls.  The embedding threads one `State` record holding the statics
together with the part of the operating system the code can observe: the descriptor table of
the process, the bytes pending on the transport and a chronological log of every call that
left the module, with its arguments and result.  What the operating system answers to a call
is an argument of the embedded function (the records `SerialOS`, `NetOS` and the `wr`
argument of `OrionCommSend`), so a statement about all answers quantifies over it.

What the operating system is assumed to do:

* `open` and `socket` return the lowest descriptor number not in use, or -1;
* `close` of an open descriptor releases it and returns 0; every call on a value that is
  not an open descriptor returns -1 and has no effect;
* `read` of one byte returns 1 and delivers the next pending byte when the descriptor is
  open and a byte is pending, and does not return 1 otherwise;
* `recvfrom` stores the source address of the datagram it returns in the buffer it is
  given;
* every other result (`isatty`, `tcgetattr`, `tcsetattr`, `bind`, `setsockopt`, `sendto`,
  `recvfrom`, `connect`, `write` on an open descriptor) is arbitrary.

`OrionComm.h` is not part of the sources at hand: its constants, the packet type and the
two packet functions the file calls are the fields of `Env`.

## The statements

The theorems whose comment starts with `Claim` are the properties; everything else supports
them.  The section `Vocabulary of the statements` defines what the statements say about the
log and about the frame assembler.
-/

namespace OrionComm

/-! ## Constants of the system headers -/

/-- Address family of IPv4 sockets, from `<sys/socket.h>`. -/
def AF_INET : Nat := 2

/-- Wildcard IPv4 address, from `<netinet/in.h>`. -/
def INADDR_ANY : Nat := 0

/-- Limited broadcast IPv4 address 255.255.255.255, from `<netinet/in.h>`. -/
def INADDR_BROADCAST : Nat := 0xffffffff

/-- Baud rate code of 115200 baud, from the Linux `<termios.h>`. -/
def B115200 : Nat := 0o10002

/-- Character size mask value for 8 data bits, from the Linux `<termios.h>`. -/
def CS8 : Nat := 0o60

/-- Ignore modem control lines, from the Linux `<termios.h>`. -/
def CLOCAL : Nat := 0o4000

/-- Enable the receiver, from the Linux `<termios.h>`. -/
def CREAD : Nat := 0o200

/-- Number of control characters in `struct termios`, from the Linux `<termios.h>`. -/
def NCCS : Nat := 32

/-! ## Data model -/

/-- The `struct termios` of `<termios.h>`. -/
structure Termios where
  c_iflag : Nat
  c_oflag : Nat
  c_cflag : Nat
  c_lflag : Nat
  c_line : Nat
  c_cc : List Nat
  c_ispeed : Nat
  c_ospeed : Nat
deriving DecidableEq, Repr

/-- The `struct sockaddr_in` of `<netinet/in.h>`; `sin_port` and `sin_addr` (the field
`sin_addr.s_addr`) hold their values in network byte order, as in C. -/
structure SockAddrIn where
  sin_family : Nat
  sin_port : Nat
  sin_addr : Nat
deriving DecidableEq, Repr

/-- The two socket types the module asks for. -/
inductive SockType where
  | SOCK_DGRAM
  | SOCK_STREAM
deriving DecidableEq, Repr

/-- The two socket options the module sets. -/
inductive SockOpt where
  | SO_RCVTIMEO
  | SO_BROADCAST
deriving DecidableEq, Repr

/-- The two messages the module passes to `perror`. -/
inductive Message where
  | udpTimeout
  | tcpTimeout
deriving DecidableEq, Repr

/-- One call leaving the module, with its arguments and the value it returned.  `P` is the
type `OrionPkt_t`. -/
inductive Event (P : Type) where
  | c_open (pPath : String) (ret : Int)
  | c_isatty (fd : Int) (ret : Int)
  | c_tcgetattr (fd : Int) (ret : Int)
  | c_tcsetattr (fd : Int) (attrs : Termios) (ret : Int)
  | c_close (fd : Int) (ret : Int)
  | c_socket (type : SockType) (ret : Int)
  | c_bind (fd : Int) (addr : SockAddrIn) (ret : Int)
  | c_setsockopt (fd : Int) (opt : SockOpt) (ret : Int)
  | c_sendto (fd : Int) (pkt : P) (len : Nat) (dest : SockAddrIn) (ret : Int)
  | c_recvfrom (fd : Int) (ret : Int)
  | c_connect (fd : Int) (addr : SockAddrIn) (ret : Int)
  | c_write (fd : Int) (pkt : P) (len : Nat) (ret : Int)
  | c_read (fd : Int) (ret : Int)
  | c_perror (msg : Message)
  | c_printf (addr : Nat)
  | c_look (byte : Nat) (ret : Bool)
deriving DecidableEq, Repr

/-- What `OrionComm.h` and the packet layer declare and `OrionCommLinux.c` uses; none of it
is defined in the file, so it is a parameter of the embedding.  `Length` reads the field
`Length` of a packet, `MakeOrionPacket ID Length` is the packet `MakeOrionPacket` builds,
`LookForOrionPacketInByte pkt byte` is the parse buffer after the byte and the value the
frame assembler returned, `zeroPkt` is the packet `{ 0 }` and `littleEndian` tells the byte
order of the host. -/
structure Env (P : Type) where
  UDP_IN_PORT : Nat
  UDP_OUT_PORT : Nat
  TCP_PORT : Nat
  ORION_PKT_OVERHEAD : Nat
  ORION_PKT_CROWN_VERSION : Nat
  Length : P → Nat
  MakeOrionPacket : Nat → Nat → P
  LookForOrionPacketInByte : P → Nat → P × Bool
  zeroPkt : P
  littleEndian : Bool

/-- The statics of the module and the observable part of the operating system. -/
structure State (P : Type) where
  /-- The `static int Handle`. -/
  Handle : Int
  /-- The `static struct sockaddr_in SockAddr` of `GetSockAddr`. -/
  SockAddr : SockAddrIn
  /-- The `static OrionPkt_t Pkt` of `OrionCommReceive`. -/
  Pkt : P
  /-- Descriptors open in the process. -/
  fds : List Nat
  /-- Descriptors this module has opened and not closed. -/
  owned : List Nat
  /-- Bytes pending on the transport, next byte first. -/
  rx : List Nat
  /-- Every call that left the module, oldest first. -/
  log : List (Event P)
deriving DecidableEq, Repr

/-- The state of a freshly loaded module in a process whose descriptors are `fds`. -/
def State.init {P : Type} (E : Env P) (fds : List Nat) : State P :=
  { Handle := -1, SockAddr := ⟨0, 0, 0⟩, Pkt := E.zeroPkt, fds := fds, owned := [],
    rx := [], log := [] }

/-! ## The operating system -/

variable {P : Type}

/-- Whether `fd` is an open descriptor of the process. -/
def State.isOpen (s : State P) (fd : Int) : Bool :=
  decide (0 ≤ fd) && decide (fd.toNat ∈ s.fds)

/-- Appends one call to the log. -/
def State.emit (s : State P) (e : Event P) : State P :=
  { s with log := s.log ++ [e] }

/-- The value a call on descriptor `fd` returns: `r`, chosen by the operating system, when
the descriptor is open, and -1 (`EBADF`) when it is not. -/
def State.osRet (s : State P) (fd : Int) (r : Int) : Int :=
  if s.isOpen fd then r else -1

/-- The lowest descriptor number that is not in use; POSIX hands out this one. -/
def lowestFree (fds : List Nat) : Nat :=
  ((List.range (fds.length + 1)).find? (fun n => decide (n ∉ fds))).getD fds.length

/-- Allocation of a new descriptor, shared by `open` and `socket`: the lowest free number
when the call succeeds, -1 when it fails. -/
def State.alloc (s : State P) (ok : Bool) : Int × State P :=
  if ok then
    let fd := lowestFree s.fds
    ((fd : Int), { s with fds := fd :: s.fds, owned := fd :: s.owned })
  else
    (-1, s)

/-- The call `open(pPath, O_RDWR | O_NOCTTY | O_NDELAY)`. -/
def sys_open (s : State P) (pPath : String) (ok : Bool) : Int × State P :=
  let r := s.alloc ok
  (r.1, r.2.emit (.c_open pPath r.1))

/-- The call `socket(AF_INET, type, 0)`. -/
def sys_socket (s : State P) (type : SockType) (ok : Bool) : Int × State P :=
  let r := s.alloc ok
  (r.1, r.2.emit (.c_socket type r.1))

/-- The call `close(fd)`: an open descriptor leaves the table and the call returns 0, any
other value is rejected with -1. -/
def sys_close (s : State P) (fd : Int) : Int × State P :=
  if s.isOpen fd then
    (0, { s with fds := s.fds.filter (fun n => decide (n ≠ fd.toNat)),
                 owned := s.owned.filter (fun n => decide (n ≠ fd.toNat)) }.emit (.c_close fd 0))
  else
    (-1, s.emit (.c_close fd (-1)))

/-- The call `isatty(fd)`. -/
def sys_isatty (s : State P) (fd : Int) (r : Int) : Int × State P :=
  let ret := if s.isOpen fd then r else 0
  (ret, s.emit (.c_isatty fd ret))

/-- The call `tcgetattr(fd, &Port)`: on success (0) the current settings `cur` of the line
are stored in `Port`. -/
def sys_tcgetattr (s : State P) (fd : Int) (Port : Termios) (r : Int) (cur : Termios) :
    Int × Termios × State P :=
  let ret := s.osRet fd r
  (ret, if ret = 0 then cur else Port, s.emit (.c_tcgetattr fd ret))

/-- The call `tcsetattr(fd, TCSANOW, &Port)`. -/
def sys_tcsetattr (s : State P) (fd : Int) (Port : Termios) (r : Int) : Int × State P :=
  let ret := s.osRet fd r
  (ret, s.emit (.c_tcsetattr fd Port ret))

/-! ## OrionCommOpenSerial -/

/-- What the operating system answers during one call of `OrionCommOpenSerial`: whether
`open` succeeds, the values `isatty`, `tcgetattr` and `tcsetattr` return on the new
descriptor, the settings of the line before the call and the bytes the uninitialised local
`Port` happens to hold. -/
structure SerialOS where
  openOk : Bool
  isatty : Int
  tcgetattr : Int
  tcsetattr : Int
  current : Termios
  uninit : Termios
deriving DecidableEq, Repr

/-- The statement `memset(&Port, 0, sizeof(Port))`: whatever `Port` held, every field is
zero afterwards. -/
def memsetZero (_Port : Termios) : Termios :=
  { c_iflag := 0, c_oflag := 0, c_cflag := 0, c_lflag := 0, c_line := 0,
    c_cc := List.replicate NCCS 0, c_ispeed := 0, c_ospeed := 0 }

/-- The two statements `close(Handle); Handle = -1;`. -/
def closeAndInvalidate (s : State P) : State P :=
  let s := (sys_close s s.Handle).2
  { s with Handle := -1 }

/-- The function `OrionCommOpenSerial` (lines 22 to 60). -/
def OrionCommOpenSerial (s : State P) (pPath : String) (o : SerialOS) : Bool × State P :=
  -- Handle = open(pPath, O_RDWR | O_NOCTTY | O_NDELAY);
  let r := sys_open s pPath o.openOk
  let s := { r.2 with Handle := r.1 }
  let s :=
    -- if (Handle >= 0)
    if s.Handle ≥ 0 then
      -- struct termios Port;
      let Port := o.uninit
      -- if (!isatty(Handle) || tcgetattr(Handle, &Port))
      let tty := sys_isatty s s.Handle o.isatty
      let s := tty.2
      if tty.1 = 0 then
        closeAndInvalidate s
      else
        let got := sys_tcgetattr s s.Handle Port o.tcgetattr o.current
        let s := got.2.2
        if got.1 ≠ 0 then
          closeAndInvalidate s
        else
          -- memset(&Port, 0, sizeof(Port));
          let Port := memsetZero got.2.1
          -- Port.c_cflag = B115200 | CS8 | CLOCAL | CREAD;
          let Port := { Port with c_cflag := B115200 ||| CS8 ||| CLOCAL ||| CREAD }
          -- if (tcsetattr(Handle, TCSANOW, &Port) != 0)
          let set := sys_tcsetattr s s.Handle Port o.tcsetattr
          let s := set.2
          if set.1 ≠ 0 then
            closeAndInvalidate s
          else
            s
    else
      s
  -- return Handle != -1;
  (decide (s.Handle ≠ -1), s)

/-! ## GetSockAddr -/

/-- Reversal of the two bytes of a 16 bit value. -/
def bswap16 (x : Nat) : Nat :=
  x % 256 * 256 + x / 256 % 256

/-- Reversal of the four bytes of a 32 bit value. -/
def bswap32 (x : Nat) : Nat :=
  x % 256 * 16777216 + x / 256 % 256 * 65536 + x / 65536 % 256 * 256 + x / 16777216 % 256

/-- The function `htonl` of `<arpa/inet.h>` on a `uint32_t`. -/
def htonl (E : Env P) (x : Nat) : Nat :=
  if E.littleEndian then bswap32 (x % 2 ^ 32) else x % 2 ^ 32

/-- The function `ntohl` of `<arpa/inet.h>` on a `uint32_t`. -/
def ntohl (E : Env P) (x : Nat) : Nat :=
  if E.littleEndian then bswap32 (x % 2 ^ 32) else x % 2 ^ 32

/-- The function `htons` of `<arpa/inet.h>` on a `uint16_t`. -/
def htons (E : Env P) (x : Nat) : Nat :=
  if E.littleEndian then bswap16 (x % 2 ^ 16) else x % 2 ^ 16

/-- The function `ntohs` of `<arpa/inet.h>` on a `uint16_t`. -/
def ntohs (E : Env P) (x : Nat) : Nat :=
  if E.littleEndian then bswap16 (x % 2 ^ 16) else x % 2 ^ 16

/-- The function `GetSockAddr` (lines 183 to 200).  The pointer it returns always points to
the static `SockAddr`, so the embedding returns the state and the caller passes
`s.SockAddr` on. -/
def GetSockAddr (E : Env P) (s : State P) (Address : Nat) (Port : Nat) : State P :=
  -- the parameters are a uint32_t and an unsigned short
  let Address := Address % 2 ^ 32
  let Port := Port % 2 ^ 16
  -- if (Address || Port)
  if Address ≠ 0 ∨ Port ≠ 0 then
    -- memset(&SockAddr, 0, sizeof(SockAddr)); and the three assignments
    { s with SockAddr :=
        { sin_family := AF_INET, sin_addr := htonl E Address, sin_port := htons E Port } }
  else
    s

/-! ## OrionCommOpenNetwork -/

/-- What the operating system answers during one iteration of the discovery loop: the value
`sendto` returns, the value `recvfrom` returns (the size of the datagram, or -1 when the
100 ms pass without one) and the IPv4 address and port the datagram came from, in host byte
order. -/
structure ProbeOS where
  sendto : Int
  recvfrom : Int
  srcAddr : Nat
  srcPort : Nat
deriving DecidableEq, Repr

/-- The iteration in which nothing arrives. -/
def ProbeOS.silent : ProbeOS :=
  { sendto := -1, recvfrom := -1, srcAddr := 0, srcPort := 0 }

/-- What the operating system answers during one call of `OrionCommOpenNetwork`: whether
the two `socket` calls succeed, the values `bind`, `setsockopt` and `connect` return, and
the answers of the loop iterations in order (an iteration past the end of `probes` is
silent). -/
structure NetOS where
  udpSocketOk : Bool
  udpBind : Int
  udpTimeout : Int
  udpBroadcast : Int
  probes : List ProbeOS
  tcpSocketOk : Bool
  tcpTimeout : Int
  tcpBind : Int
  connect : Int
deriving DecidableEq, Repr

/-- The call `bind(fd, addr, sizeof(struct sockaddr_in))`. -/
def sys_bind (s : State P) (fd : Int) (addr : SockAddrIn) (r : Int) : Int × State P :=
  let ret := s.osRet fd r
  (ret, s.emit (.c_bind fd addr ret))

/-- The call `setsockopt(fd, SOL_SOCKET, opt, ...)`. -/
def sys_setsockopt (s : State P) (fd : Int) (opt : SockOpt) (r : Int) : Int × State P :=
  let ret := s.osRet fd r
  (ret, s.emit (.c_setsockopt fd opt ret))

/-- The call `sendto(fd, pkt, len, 0, dest, sizeof(struct sockaddr_in))`. -/
def sys_sendto (s : State P) (fd : Int) (pkt : P) (len : Nat) (dest : SockAddrIn) (r : Int) :
    Int × State P :=
  let ret := s.osRet fd r
  (ret, s.emit (.c_sendto fd pkt len dest ret))

/-- The call `recvfrom(fd, Buffer, 64, 0, from, &Size)` with `from` pointing to the static
`SockAddr`: when a datagram is returned its source address is stored there. -/
def sys_recvfrom (E : Env P) (s : State P) (fd : Int) (p : ProbeOS) : Int × State P :=
  let ret := s.osRet fd p.recvfrom
  let s := s.emit (.c_recvfrom fd ret)
  if ret ≥ 0 then
    (ret, { s with SockAddr :=
              { sin_family := AF_INET, sin_addr := htonl E p.srcAddr,
                sin_port := htons E p.srcPort } })
  else
    (ret, s)

/-- The call `connect(fd, addr, sizeof(struct sockaddr_in))`. -/
def sys_connect (s : State P) (fd : Int) (addr : SockAddrIn) (r : Int) : Int × State P :=
  let ret := s.osRet fd r
  (ret, s.emit (.c_connect fd addr ret))

/-- The body of `if (recvfrom(...) > 0)` (lines 107 to 134), up to the `break`. -/
def connectToGimbal (E : Env P) (o : NetOS) (UdpHandle : Int) (s : State P) : State P :=
  -- UInt32 Address = ntohl(((struct sockaddr_in *)GetSockAddr(0, 0))->sin_addr.s_addr);
  let s := GetSockAddr E s 0 0
  let Address := ntohl E s.SockAddr.sin_addr
  -- Handle = socket(AF_INET, SOCK_STREAM, 0);
  let r := sys_socket s .SOCK_STREAM o.tcpSocketOk
  let s := { r.2 with Handle := r.1 }
  -- if (setsockopt(Handle, SOL_SOCKET, SO_RCVTIMEO, &tv, sizeof(tv)) < 0) perror(...);
  let r := sys_setsockopt s s.Handle .SO_RCVTIMEO o.tcpTimeout
  let s := if r.1 < 0 then r.2.emit (.c_perror .tcpTimeout) else r.2
  -- bind(Handle, GetSockAddr(INADDR_ANY, TCP_PORT), sizeof(struct sockaddr_in));
  let s := GetSockAddr E s INADDR_ANY E.TCP_PORT
  let s := (sys_bind s s.Handle s.SockAddr o.tcpBind).2
  -- connect(Handle, GetSockAddr(Address, TCP_PORT), sizeof(struct sockaddr_in));
  let s := GetSockAddr E s Address E.TCP_PORT
  let s := (sys_connect s s.Handle s.SockAddr o.connect).2
  -- Address = htonl(Address);
  let Address := htonl E Address
  -- printf("Connected to %s\n", inet_ntop(AF_INET, &Address, IpString, INET_ADDRSTRLEN));
  let s := s.emit (.c_printf Address)
  -- close(UdpHandle);
  (sys_close s UdpHandle).2

/-- The loop `while (WaitCount++ < 50)` (lines 97 to 136).  The first argument is the
number of iterations still allowed, `50 - WaitCount`: the test holds exactly when it is
positive.  The second argument lists the answers of the operating system to the iterations
still to come. -/
def probeLoop (E : Env P) (o : NetOS) (UdpHandle : Int) (Pkt : P) :
    Nat → List ProbeOS → State P → State P
  | 0, _, s => s
  | n + 1, probes, s =>
    let p := probes.headD ProbeOS.silent
    -- sendto(UdpHandle, (char *)&Pkt, Pkt.Length + ORION_PKT_OVERHEAD, 0,
    --        GetSockAddr(INADDR_BROADCAST, UDP_OUT_PORT), sizeof(struct sockaddr_in));
    let s := GetSockAddr E s INADDR_BROADCAST E.UDP_OUT_PORT
    let s := (sys_sendto s UdpHandle Pkt (E.Length Pkt + E.ORION_PKT_OVERHEAD) s.SockAddr
                p.sendto).2
    -- if (recvfrom(UdpHandle, Buffer, 64, 0, GetSockAddr(INADDR_ANY, UDP_IN_PORT), &Size) > 0)
    let s := GetSockAddr E s INADDR_ANY E.UDP_IN_PORT
    let r := sys_recvfrom E s UdpHandle p
    if r.1 > 0 then
      -- the body, then break
      connectToGimbal E o UdpHandle r.2
    else
      probeLoop E o UdpHandle Pkt n probes.tail r.2

/-- The function `OrionCommOpenNetwork` (lines 62 to 142). -/
def OrionCommOpenNetwork (E : Env P) (s : State P) (o : NetOS) : Bool × State P :=
  -- int UdpHandle = socket(AF_INET, SOCK_DGRAM, 0);
  let r := sys_socket s .SOCK_DGRAM o.udpSocketOk
  let UdpHandle := r.1
  let s := r.2
  let s :=
    -- if (UdpHandle >= 0)
    if UdpHandle ≥ 0 then
      -- bind(UdpHandle, GetSockAddr(INADDR_ANY, UDP_IN_PORT), sizeof(struct sockaddr_in));
      let s := GetSockAddr E s INADDR_ANY E.UDP_IN_PORT
      let s := (sys_bind s UdpHandle s.SockAddr o.udpBind).2
      -- if (setsockopt(UdpHandle, SOL_SOCKET, SO_RCVTIMEO, &tv, sizeof(tv)) < 0) perror(...);
      let r := sys_setsockopt s UdpHandle .SO_RCVTIMEO o.udpTimeout
      let s := if r.1 < 0 then r.2.emit (.c_perror .udpTimeout) else r.2
      -- setsockopt(UdpHandle, SOL_SOCKET, SO_BROADCAST, (char *)&Broadcast, sizeof(BOOL));
      let s := (sys_setsockopt s UdpHandle .SO_BROADCAST o.udpBroadcast).2
      -- MakeOrionPacket(&Pkt, ORION_PKT_CROWN_VERSION, 0);
      let Pkt := E.MakeOrionPacket E.ORION_PKT_CROWN_VERSION 0
      -- int WaitCount = 0; while (WaitCount++ < 50) ...
      probeLoop E o UdpHandle Pkt 50 o.probes s
    else
      s
  -- return Handle != -1;
  (decide (s.Handle ≠ -1), s)

/-! ## OrionCommClose, OrionCommSend, OrionCommReceive -/

/-- The function `OrionCommClose` (lines 144 to 149). -/
def OrionCommClose (s : State P) : State P :=
  -- close(Handle);
  (sys_close s s.Handle).2

/-- The call `write(fd, pkt, len)`; `r` is the number of bytes the operating system
accepts on an open descriptor (or its error value). -/
def sys_write (s : State P) (fd : Int) (pkt : P) (len : Nat) (r : Int) : Int × State P :=
  let ret := s.osRet fd r
  (ret, s.emit (.c_write fd pkt len ret))

/-- The function `OrionCommSend` (lines 151 to 156). -/
def OrionCommSend (E : Env P) (s : State P) (pPkt : P) (wr : Int) : Bool × State P :=
  -- return write(Handle, (char *)pPkt, pPkt->Length + ORION_PKT_OVERHEAD) > 0;
  let r := sys_write s s.Handle pPkt (E.Length pPkt + E.ORION_PKT_OVERHEAD) wr
  (decide (r.1 > 0), r.2)

/-- The bytes `read` can deliver on `fd`: the pending bytes when the descriptor is open,
none when it is not (every `read` fails then). -/
def State.readable (s : State P) (fd : Int) : List Nat :=
  if s.isOpen fd then s.rx else []

/-- What a call of `OrionCommReceive` leaves behind: the value returned, the packet in the
buffer `pPkt` of the caller and the state. -/
structure Received (P : Type) where
  ret : Bool
  pPkt : P
  st : State P

/-- The call `read(fd, &Buffer, 1)`: it returns 1 and stores the next pending byte in
`Buffer` when the descriptor is open and a byte is pending, and -1 otherwise. -/
def sys_read (s : State P) (fd : Int) (Buffer : Nat) : Int × Nat × State P :=
  match s.readable fd with
  | [] => (-1, Buffer, s.emit (.c_read fd (-1)))
  | b :: rest => (1, b, { s with rx := rest }.emit (.c_read fd 1))

/-- The loop of `OrionCommReceive` (lines 164 to 176), by recursion on the bytes
`read(Handle, &Buffer, 1)` can still deliver: with none left the call does not return 1 and
the loop ends, otherwise it returns 1 with the next byte in `Buffer`.  That each iteration
is one `sys_read` followed by the body of the loop is `OrionCommReceive_unfold`. -/
def receiveLoop (E : Env P) (pPkt : P) : State P → List Nat → Received P
  | s, [] =>
    -- read(...) == 1 fails; return FALSE;
    { ret := false, pPkt := pPkt, st := s.emit (.c_read s.Handle (-1)) }
  | s, Buffer :: rest =>
    let s := { s with rx := rest }.emit (.c_read s.Handle 1)
    -- if (LookForOrionPacketInByte(&Pkt, Buffer))
    let l := E.LookForOrionPacketInByte s.Pkt Buffer
    let s := { s with Pkt := l.1 }.emit (.c_look Buffer l.2)
    if l.2 then
      -- *pPkt = Pkt; return TRUE;
      { ret := true, pPkt := s.Pkt, st := s }
    else
      receiveLoop E pPkt s rest

/-- The function `OrionCommReceive` (lines 158 to 178); `pPkt` is what the buffer of the
caller holds before the call. -/
def OrionCommReceive (E : Env P) (s : State P) (pPkt : P) : Received P :=
  receiveLoop E pPkt s (s.readable s.Handle)

/-! ## Vocabulary of the statements -/

/-! ### The calls of one function -/

/-- The calls a function added to the log between the states `s` and `t`. -/
def emitted (s t : State P) : List (Event P) :=
  t.log.drop s.log.length

/-- Whether a call is a `close`. -/
def Event.isClose : Event P → Bool
  | .c_close _ _ => true
  | _ => false

/-- Whether a call is a `sendto`. -/
def Event.isSendto : Event P → Bool
  | .c_sendto _ _ _ _ _ => true
  | _ => false

/-- Whether a call is a `recvfrom`. -/
def Event.isRecvfrom : Event P → Bool
  | .c_recvfrom _ _ => true
  | _ => false

/-- Whether a call is a `socket`. -/
def Event.isSocket : Event P → Bool
  | .c_socket _ _ => true
  | _ => false

/-- Whether a call is a `connect`. -/
def Event.isConnect : Event P → Bool
  | .c_connect _ _ _ => true
  | _ => false

/-- Whether a call is a `bind`. -/
def Event.isBind : Event P → Bool
  | .c_bind _ _ _ => true
  | _ => false

/-- The byte a call handed to the frame assembler, when the call is one. -/
def Event.lookByte : Event P → Option Nat
  | .c_look b _ => some b
  | _ => none

/-- The bytes handed to the frame assembler between the states `s` and `t`, in order. -/
def fedBytes (s t : State P) : List Nat :=
  (emitted s t).filterMap Event.lookByte

/-! ### The frame assembler on a stream -/

/-- The parse buffer after the frame assembler has been fed `bs` in order from `p`. -/
def feed (E : Env P) (p : P) (bs : List Nat) : P :=
  bs.foldl (fun q b => (E.LookForOrionPacketInByte q b).1) p

/-- Whether the frame assembler, fed `bs` in order from `p`, reports a complete packet on
the byte of index `k`. -/
def completesAt (E : Env P) (p : P) (bs : List Nat) (k : Nat) : Bool :=
  match bs[k]? with
  | some b => (E.LookForOrionPacketInByte (feed E p (bs.take k)) b).2
  | none => false

/-- The packets the frame assembler holds at its completions, in order, when it is fed `bs`
from `p`. -/
def completions (E : Env P) : P → List Nat → List P
  | _, [] => []
  | p, b :: bs =>
    let l := E.LookForOrionPacketInByte p b
    if l.2 then l.1 :: completions E l.1 bs else completions E l.1 bs

/-- Index of the first byte of `bs` on which the frame assembler reports a complete
packet. -/
def firstComplete (E : Env P) : P → List Nat → Option Nat
  | _, [] => none
  | p, b :: bs =>
    let l := E.LookForOrionPacketInByte p b
    if l.2 then some 0 else (firstComplete E l.1 bs).map (· + 1)

/-! ### The callers of the module -/

/-- Repeated calls of `OrionCommReceive`, each on the state the previous one left, until a
call returns FALSE or `n` calls have been made: the packets the calls that returned TRUE
delivered, in order, and the state after the call that returned FALSE (`none` when all `n`
calls returned TRUE). -/
def receiveCalls (E : Env P) : Nat → State P → P → List P × Option (State P)
  | 0, _, _ => ([], none)
  | n + 1, s, pPkt =>
    let r := OrionCommReceive E s pPkt
    if r.ret then
      let rest := receiveCalls E n r.st r.pPkt
      (r.pPkt :: rest.1, rest.2)
    else
      ([], some r.st)

/-- No transport is usable in state `t`: every `OrionCommSend` returns FALSE, every
`OrionCommReceive` returns FALSE, leaves the buffer of the caller, the pending bytes and the
parse buffer as they were and hands no byte to the frame assembler, and `OrionCommClose`
does nothing but issue a `close` that the operating system rejects. -/
def NoTransport (E : Env P) (t : State P) : Prop :=
  (∀ (pkt : P) (wr : Int), (OrionCommSend E t pkt wr).1 = false) ∧
  (∀ pPkt : P,
    (OrionCommReceive E t pPkt).ret = false ∧
    (OrionCommReceive E t pPkt).pPkt = pPkt ∧
    (OrionCommReceive E t pPkt).st.rx = t.rx ∧
    (OrionCommReceive E t pPkt).st.Pkt = t.Pkt ∧
    fedBytes t (OrionCommReceive E t pPkt).st = []) ∧
  OrionCommClose t = t.emit (.c_close t.Handle (-1))

/-- One call of the session interface together with what the operating system answers
during it. -/
inductive Call where
  | openSerial (pPath : String) (o : SerialOS)
  | openNetwork (o : NetOS)
  | close
deriving DecidableEq, Repr

/-- The state after one call of the session interface. -/
def step (E : Env P) (s : State P) : Call → State P
  | .openSerial pPath o => (OrionCommOpenSerial s pPath o).2
  | .openNetwork o => (OrionCommOpenNetwork E s o).2
  | .close => OrionCommClose s

/-- The state after a sequence of calls of the session interface. -/
def run (E : Env P) (s : State P) (cs : List Call) : State P :=
  cs.foldl (step E) s

/-- Whether a discovery creates its UDP socket and then gets no datagram of at least one
byte in any of the 50 iterations. -/
def NetOS.timesOut (o : NetOS) : Bool :=
  o.udpSocketOk &&
    (List.range 50).all (fun i => decide ((o.probes.getD i ProbeOS.silent).recvfrom ≤ 0))

/-- Whether every Open of the sequence `cs`, run from `s`, is called while the module holds
no open descriptor and is not a discovery that times out. -/
def disciplined (E : Env P) : State P → List Call → Bool
  | _, [] => true
  | s, .close :: cs => disciplined E (step E s .close) cs
  | s, .openSerial pPath o :: cs =>
    decide (s.owned = []) && disciplined E (step E s (.openSerial pPath o)) cs
  | s, .openNetwork o :: cs =>
    decide (s.owned = []) && !o.timesOut && disciplined E (step E s (.openNetwork o)) cs

/-- At most one descriptor of the module is open and it is the one stored in `Handle`. -/
def OneHandle (s : State P) : Prop :=
  s.owned.length ≤ 1 ∧ ∀ fd ∈ s.owned, s.Handle = (fd : Int)

/-! ### Normal forms of the states and of the log -/

/-- The line settings the module applies: the control flags of line 45, every other field
zero. -/
def fixedSettings : Termios :=
  { c_iflag := 0, c_oflag := 0, c_cflag := B115200 ||| CS8 ||| CLOCAL ||| CREAD, c_lflag := 0,
    c_line := 0, c_cc := List.replicate NCCS 0, c_ispeed := 0, c_ospeed := 0 }

/-- The state `OrionCommOpenSerial` leaves when it fails after `open` succeeded. -/
def serialFailed (s : State P) (evs : List (Event P)) : State P :=
  { s with Handle := -1,
           owned := s.owned.filter (fun n => decide (n ≠ lowestFree s.fds)),
           log := s.log ++ evs }

/-- The content of the static `SockAddr` after `GetSockAddr(Address, Port)` when it was
`old` before. -/
def sockAddrOf (E : Env P) (old : SockAddrIn) (Address Port : Nat) : SockAddrIn :=
  if Address % 2 ^ 32 ≠ 0 ∨ Port % 2 ^ 16 ≠ 0 then
    { sin_family := AF_INET, sin_addr := htonl E (Address % 2 ^ 32),
      sin_port := htons E (Port % 2 ^ 16) }
  else
    old

/-- The address `GetSockAddr(INADDR_BROADCAST, UDP_OUT_PORT)` builds. -/
def broadcastAddr (E : Env P) : SockAddrIn :=
  { sin_family := AF_INET, sin_addr := htonl E INADDR_BROADCAST,
    sin_port := htons E (E.UDP_OUT_PORT % 2 ^ 16) }

/-- The address `recvfrom` stores for the datagram of `p`. -/
def replyAddr (E : Env P) (p : ProbeOS) : SockAddrIn :=
  { sin_family := AF_INET, sin_addr := htonl E p.srcAddr, sin_port := htons E p.srcPort }

/-- The calls of the first `n` iterations of the discovery loop on the UDP socket `u`. -/
def probeLog (E : Env P) (u : Nat) (Pkt : P) : Nat → List ProbeOS → List (Event P)
  | 0, _ => []
  | n + 1, probes =>
    .c_sendto u Pkt (E.Length Pkt + E.ORION_PKT_OVERHEAD) (broadcastAddr E)
        (probes.headD ProbeOS.silent).sendto ::
      .c_recvfrom u (probes.headD ProbeOS.silent).recvfrom ::
        probeLog E u Pkt n probes.tail

/-- The calls `connectToGimbal` makes when the TCP socket `h` is created, the static
`SockAddr` holds `sa` and the UDP socket is `u`. -/
def connectLog (E : Env P) (o : NetOS) (u : Nat) (h : Int) (sa : SockAddrIn) (r : Int → Int) :
    List (Event P) :=
  .c_socket .SOCK_STREAM h ::
    .c_setsockopt h .SO_RCVTIMEO (r o.tcpTimeout) ::
      ((if r o.tcpTimeout < 0 then [.c_perror .tcpTimeout] else []) ++
        [.c_bind h (sockAddrOf E sa INADDR_ANY E.TCP_PORT) (r o.tcpBind),
         .c_connect h
           (sockAddrOf E (sockAddrOf E sa INADDR_ANY E.TCP_PORT) (ntohl E sa.sin_addr) E.TCP_PORT)
           (r o.connect),
         .c_printf (htonl E (ntohl E sa.sin_addr)),
         .c_close u 0])

/-- The calls `OrionCommOpenNetwork` makes on the UDP socket `u` before the loop, when the
static `SockAddr` held `sa`. -/
def udpSetupLog (E : Env P) (o : NetOS) (u : Int) (sa : SockAddrIn) : List (Event P) :=
  .c_socket .SOCK_DGRAM u ::
    .c_bind u (sockAddrOf E sa INADDR_ANY E.UDP_IN_PORT) o.udpBind ::
      .c_setsockopt u .SO_RCVTIMEO o.udpTimeout ::
        ((if o.udpTimeout < 0 then [.c_perror .udpTimeout] else []) ++
          [.c_setsockopt u .SO_BROADCAST o.udpBroadcast])

/-- The state in which the discovery loop starts. -/
def loopStart (E : Env P) (o : NetOS) (s : State P) : State P :=
  { s with SockAddr := sockAddrOf E s.SockAddr INADDR_ANY E.UDP_IN_PORT,
           fds := lowestFree s.fds :: s.fds,
           owned := lowestFree s.fds :: s.owned,
           log := s.log ++ udpSetupLog E o (lowestFree s.fds) s.SockAddr }

/-! ### Concrete inputs -/

/-- A small instance of the parameters on which the embedding can be evaluated: packets are
lists of bytes, a zero byte ends a packet (and is kept in it), the byte after a finished
packet starts the next one. -/
def toyEnv : Env (List Nat) :=
  { UDP_IN_PORT := 8746, UDP_OUT_PORT := 8745, TCP_PORT := 8747, ORION_PKT_OVERHEAD := 6,
    ORION_PKT_CROWN_VERSION := 7, Length := fun p => p.length,
    MakeOrionPacket := fun _ n => List.replicate n 0,
    LookForOrionPacketInByte := fun p b =>
      if b = 0 then (p ++ [0], true)
      else if p.getLast? = some 0 then ([b], false) else (p ++ [b], false),
    zeroPkt := [], littleEndian := true }

/-- The freshly loaded module in a process that holds the three standard descriptors. -/
def toyState : State (List Nat) := State.init toyEnv [0, 1, 2]

/-- Answers of the operating system to an `OrionCommOpenSerial` on a serial line that
accepts the settings. -/
def serialOk : SerialOS :=
  { openOk := true, isatty := 1, tcgetattr := 0, tcsetattr := 0,
    current := { c_iflag := 1280, c_oflag := 5, c_cflag := 191, c_lflag := 35387, c_line := 0,
                 c_cc := List.replicate NCCS 0, c_ispeed := 13, c_ospeed := 13 },
    uninit := memsetZero fixedSettings }

/-- Answers of the operating system to an `OrionCommOpenSerial` on a path that is not a
serial line. -/
def notSerial : SerialOS :=
  { openOk := true, isatty := 0, tcgetattr := 0, tcsetattr := 0,
    current := memsetZero fixedSettings, uninit := memsetZero fixedSettings }

/-- Answers of the operating system to an `OrionCommOpenNetwork` when no gimbal replies. -/
def noGimbal : NetOS :=
  { udpSocketOk := true, udpBind := 0, udpTimeout := 0, udpBroadcast := 0, probes := [],
    tcpSocketOk := true, tcpTimeout := 0, tcpBind := 0, connect := 0 }

/-- Answers of the operating system to an `OrionCommOpenNetwork` when the gimbal at
10.0.0.5 replies to the third probe; the second `recvfrom` returns an empty datagram. -/
def gimbalOnThird : NetOS :=
  { udpSocketOk := true, udpBind := 0, udpTimeout := 0, udpBroadcast := 0,
    probes := [ProbeOS.silent,
               { sendto := 6, recvfrom := 0, srcAddr := 3232235777, srcPort := 4000 },
               { sendto := 6, recvfrom := 12, srcAddr := 167772165, srcPort := 8745 }],
    tcpSocketOk := true, tcpTimeout := 0, tcpBind := 0, connect := 0 }

/-- Answers of the operating system to an `OrionCommOpenNetwork` when the gimbal replies to
the first probe and then both the TCP `bind` and the TCP `connect` fail. -/
def connectRefused : NetOS :=
  { udpSocketOk := true, udpBind := 0, udpTimeout := 0, udpBroadcast := 0,
    probes := [{ sendto := 6, recvfrom := 12, srcAddr := 167772165, srcPort := 8745 }],
    tcpSocketOk := true, tcpTimeout := 0, tcpBind := -1, connect := -1 }

/-- The module after a serial line was opened on descriptor 3, with two packets and the
first byte of a third pending. -/
def toyOpen : State (List Nat) :=
  { (OrionCommOpenSerial toyState "/dev/ttyUSB0" serialOk).2 with rx := [1, 2, 0, 3, 0, 4] }

/-! ## Lemmas and theorems -/

/-! ### Descriptors and the log -/

/-- The descriptor `open` and `socket` hand out is not in use. -/
theorem lowestFree_not_mem (fds : List Nat) : lowestFree fds ∉ fds := by
  unfold lowestFree
  cases h : (List.range (fds.length + 1)).find? (fun n => decide (n ∉ fds)) with
  | some n =>
    have := List.find?_some h
    simpa using this
  | none =>
    exfalso
    rw [List.find?_eq_none] at h
    have hsub : List.range (fds.length + 1) ⊆ fds := by
      intro n hn
      have := h n hn
      simpa using this
    have hle := ((List.nodup_range (fds.length + 1)).subperm hsub).length_le
    simp at hle

theorem emitted_append (s t : State P) (evs : List (Event P)) (h : t.log = s.log ++ evs) :
    emitted s t = evs := by
  simp [emitted, h]

theorem ite_emit (c : Prop) [Decidable c] (s : State P) (e : Event P) :
    (if c then s.emit e else s) = { s with log := s.log ++ (if c then [e] else []) } := by
  split <;> simp [State.emit]

/-! ### OrionCommOpenSerial -/

theorem openSerial_open_fails (s : State P) (pPath : String) (o : SerialOS)
    (h : o.openOk = false) :
    OrionCommOpenSerial s pPath o
      = (false, { s with Handle := -1, log := s.log ++ [.c_open pPath (-1)] }) := by
  simp [OrionCommOpenSerial, sys_open, State.alloc, State.emit, h]

theorem openSerial_not_tty (s : State P) (pPath : String) (o : SerialOS)
    (h : o.openOk = true) (h1 : o.isatty = 0) :
    OrionCommOpenSerial s pPath o
      = (false, serialFailed s [.c_open pPath (lowestFree s.fds),
          .c_isatty (lowestFree s.fds) 0, .c_close (lowestFree s.fds) 0]) := by
  have hf : ∀ a ∈ s.fds, ¬a = lowestFree s.fds := fun a ha e =>
    lowestFree_not_mem s.fds (e ▸ ha)
  simp [OrionCommOpenSerial, sys_open, State.alloc, State.emit, h, h1, sys_isatty,
    closeAndInvalidate, sys_close, State.isOpen, List.filter_cons, serialFailed]
  exact hf

theorem openSerial_getattr_fails (s : State P) (pPath : String) (o : SerialOS)
    (h : o.openOk = true) (h1 : o.isatty ≠ 0) (h2 : o.tcgetattr ≠ 0) :
    OrionCommOpenSerial s pPath o
      = (false, serialFailed s [.c_open pPath (lowestFree s.fds),
          .c_isatty (lowestFree s.fds) o.isatty, .c_tcgetattr (lowestFree s.fds) o.tcgetattr,
          .c_close (lowestFree s.fds) 0]) := by
  have hf : ∀ a ∈ s.fds, ¬a = lowestFree s.fds := fun a ha e =>
    lowestFree_not_mem s.fds (e ▸ ha)
  simp [OrionCommOpenSerial, sys_open, State.alloc, State.emit, h, h1, h2, sys_isatty,
    sys_tcgetattr, State.osRet,
    closeAndInvalidate, sys_close, State.isOpen, List.filter_cons, serialFailed]
  exact hf

theorem openSerial_setattr_fails (s : State P) (pPath : String) (o : SerialOS)
    (h : o.openOk = true) (h1 : o.isatty ≠ 0) (h2 : o.tcgetattr = 0) (h3 : o.tcsetattr ≠ 0) :
    OrionCommOpenSerial s pPath o
      = (false, serialFailed s [.c_open pPath (lowestFree s.fds),
          .c_isatty (lowestFree s.fds) o.isatty, .c_tcgetattr (lowestFree s.fds) 0,
          .c_tcsetattr (lowestFree s.fds) fixedSettings o.tcsetattr,
          .c_close (lowestFree s.fds) 0]) := by
  have hf : ∀ a ∈ s.fds, ¬a = lowestFree s.fds := fun a ha e =>
    lowestFree_not_mem s.fds (e ▸ ha)
  simp [OrionCommOpenSerial, sys_open, State.alloc, State.emit, h, h1, h2, h3, sys_isatty,
    sys_tcgetattr, sys_tcsetattr, State.osRet, memsetZero, fixedSettings,
    closeAndInvalidate, sys_close, State.isOpen, List.filter_cons, serialFailed]
  exact hf

theorem openSerial_succeeds (s : State P) (pPath : String) (o : SerialOS)
    (h : o.openOk = true) (h1 : o.isatty ≠ 0) (h2 : o.tcgetattr = 0) (h3 : o.tcsetattr = 0) :
    OrionCommOpenSerial s pPath o
      = (true, { s with Handle := (lowestFree s.fds : Int),
                        fds := lowestFree s.fds :: s.fds,
                        owned := lowestFree s.fds :: s.owned,
                        log := s.log ++ [.c_open pPath (lowestFree s.fds),
          .c_isatty (lowestFree s.fds) o.isatty, .c_tcgetattr (lowestFree s.fds) 0,
          .c_tcsetattr (lowestFree s.fds) fixedSettings 0] }) := by
  simp [OrionCommOpenSerial, sys_open, State.alloc, State.emit, h, h1, h2, h3, sys_isatty,
    sys_tcgetattr, sys_tcsetattr, State.osRet, memsetZero, fixedSettings,
    closeAndInvalidate, sys_close, State.isOpen, List.filter_cons]

/-- Claim C3 (a failing `OrionCommOpenSerial` leaves no open handle).  For every state, path
and answers of the operating system: if `open` fails, or `isatty` returns 0, or `tcgetattr`
or `tcsetattr` return a value other than 0, then the function returns FALSE, `Handle` is -1
and the descriptor table is what it was before the call.  When `open` failed it was the only
call made; when `open` returned a descriptor, the function made exactly one `close`, on that
descriptor, which the operating system accepted, and the descriptor is neither open nor
owned by the module afterwards. -/
theorem OrionCommOpenSerial_failure_releases (s : State P) (pPath : String) (o : SerialOS)
    (hfail : o.openOk = false ∨ o.isatty = 0 ∨ o.tcgetattr ≠ 0 ∨ o.tcsetattr ≠ 0) :
    (OrionCommOpenSerial s pPath o).1 = false ∧
    (OrionCommOpenSerial s pPath o).2.Handle = -1 ∧
    (OrionCommOpenSerial s pPath o).2.fds = s.fds ∧
    (o.openOk = false →
      emitted s (OrionCommOpenSerial s pPath o).2 = [.c_open pPath (-1)]) ∧
    (o.openOk = true →
      (emitted s (OrionCommOpenSerial s pPath o).2).head? = some (.c_open pPath (lowestFree s.fds)) ∧
      (emitted s (OrionCommOpenSerial s pPath o).2).filter Event.isClose
        = [.c_close (lowestFree s.fds) 0] ∧
      (OrionCommOpenSerial s pPath o).2.isOpen (lowestFree s.fds) = false ∧
      lowestFree s.fds ∉ (OrionCommOpenSerial s pPath o).2.owned) := by
  have hfree := lowestFree_not_mem s.fds
  by_cases h : o.openOk = true
  · by_cases h1 : o.isatty = 0
    · rw [openSerial_not_tty s pPath o h h1]
      simp [serialFailed, emitted, Event.isClose, State.isOpen, h, hfree]
    · by_cases h2 : o.tcgetattr = 0
      · have h3 : o.tcsetattr ≠ 0 := by
          rcases hfail with hf | hf | hf | hf
          · simp [h] at hf
          · exact absurd hf h1
          · exact absurd h2 hf
          · exact hf
        rw [openSerial_setattr_fails s pPath o h h1 h2 h3]
        simp [serialFailed, emitted, Event.isClose, State.isOpen, h, hfree]
      · rw [openSerial_getattr_fails s pPath o h h1 h2]
        simp [serialFailed, emitted, Event.isClose, State.isOpen, h, hfree]
  · have h0 : o.openOk = false := by simpa using h
    rw [openSerial_open_fails s pPath o h0]
    simp [emitted, h0]

/-- Claim C3 at a concrete input: the path opens as descriptor 3, which is not a tty. -/
theorem OrionCommOpenSerial_failure_releases_witness :
    (notSerial.openOk = false ∨ notSerial.isatty = 0 ∨ notSerial.tcgetattr ≠ 0 ∨ notSerial.tcsetattr ≠ 0) ∧
    ((OrionCommOpenSerial toyState "/dev/null" notSerial).1 = false ∧
    (OrionCommOpenSerial toyState "/dev/null" notSerial).2.Handle = -1 ∧
    (OrionCommOpenSerial toyState "/dev/null" notSerial).2.fds = toyState.fds ∧
    (notSerial.openOk = false →
      emitted toyState (OrionCommOpenSerial toyState "/dev/null" notSerial).2 = [.c_open "/dev/null" (-1)]) ∧
    (notSerial.openOk = true →
      (emitted toyState (OrionCommOpenSerial toyState "/dev/null" notSerial).2).head? = some (.c_open "/dev/null" (lowestFree toyState.fds)) ∧
      (emitted toyState (OrionCommOpenSerial toyState "/dev/null" notSerial).2).filter Event.isClose
        = [.c_close (lowestFree toyState.fds) 0] ∧
      (OrionCommOpenSerial toyState "/dev/null" notSerial).2.isOpen (lowestFree toyState.fds) = false ∧
      lowestFree toyState.fds ∉ (OrionCommOpenSerial toyState "/dev/null" notSerial).2.owned)) :=
  ⟨by decide, OrionCommOpenSerial_failure_releases toyState "/dev/null" notSerial (by decide)⟩

/-- Claim C10 (`OrionCommOpenSerial` succeeds with a fixed configuration).  For every state,
path and answers of the operating system, the function returns TRUE exactly when `open`
succeeds, `isatty` does not return 0, and `tcgetattr` and `tcsetattr` return 0.  In that case
`Handle` is the descriptor `open` returned, it is open, no `close` was made, and the
settings passed to `tcsetattr` have the control flags `B115200 | CS8 | CLOCAL | CREAD` and
every other field zero, whatever the path, the settings `tcgetattr` read and the initial
content of `Port`. -/
theorem OrionCommOpenSerial_success_iff (s : State P) (pPath : String) (o : SerialOS) :
    ((OrionCommOpenSerial s pPath o).1 = true ↔
      (o.openOk = true ∧ o.isatty ≠ 0 ∧ o.tcgetattr = 0 ∧ o.tcsetattr = 0)) ∧
    ((OrionCommOpenSerial s pPath o).1 = true →
      (OrionCommOpenSerial s pPath o).2.Handle = (lowestFree s.fds : Int) ∧
      (OrionCommOpenSerial s pPath o).2.isOpen (OrionCommOpenSerial s pPath o).2.Handle = true ∧
      emitted s (OrionCommOpenSerial s pPath o).2 =
        [.c_open pPath (lowestFree s.fds), .c_isatty (lowestFree s.fds) o.isatty,
         .c_tcgetattr (lowestFree s.fds) 0,
         .c_tcsetattr (lowestFree s.fds)
           { c_iflag := 0, c_oflag := 0, c_cflag := B115200 ||| CS8 ||| CLOCAL ||| CREAD,
             c_lflag := 0, c_line := 0, c_cc := List.replicate NCCS 0, c_ispeed := 0,
             c_ospeed := 0 } 0]) := by
  by_cases h : o.openOk = true
  · by_cases h1 : o.isatty = 0
    · rw [openSerial_not_tty s pPath o h h1]
      simp [h1]
    · by_cases h2 : o.tcgetattr = 0
      · by_cases h3 : o.tcsetattr = 0
        · rw [openSerial_succeeds s pPath o h h1 h2 h3]
          simp [emitted, State.isOpen, fixedSettings, h, h1, h2, h3]
        · rw [openSerial_setattr_fails s pPath o h h1 h2 h3]
          simp [h3]
      · rw [openSerial_getattr_fails s pPath o h h1 h2]
        simp [h2]
  · have h0 : o.openOk = false := by simpa using h
    rw [openSerial_open_fails s pPath o h0]
    simp [h0]

/-! ### The frame assembler on a stream -/

theorem completesAt_zero (E : Env P) (p : P) (b : Nat) (bs : List Nat) :
    completesAt E p (b :: bs) 0 = (E.LookForOrionPacketInByte p b).2 := by
  simp [completesAt, feed]

theorem completesAt_succ (E : Env P) (p : P) (b : Nat) (bs : List Nat) (k : Nat) :
    completesAt E p (b :: bs) (k + 1)
      = completesAt E (E.LookForOrionPacketInByte p b).1 bs k := by
  simp [completesAt, feed]

theorem completesAt_lt (E : Env P) (p : P) (bs : List Nat) (k : Nat)
    (h : completesAt E p bs k = true) : k < bs.length := by
  unfold completesAt at h
  by_contra hk
  rw [List.getElem?_eq_none (by omega)] at h
  simp at h

theorem firstComplete_some (E : Env P) (bs : List Nat) (p : P) (k : Nat) :
    firstComplete E p bs = some k ↔
      (completesAt E p bs k = true ∧ ∀ j, j < k → completesAt E p bs j = false) := by
  induction bs generalizing p k with
  | nil => simp [firstComplete, completesAt]
  | cons b bs ih =>
    by_cases hb : (E.LookForOrionPacketInByte p b).2 = true
    · simp only [firstComplete, hb, if_true]
      constructor
      · intro h
        have hk : k = 0 := by simpa using h.symm
        subst hk
        simp [completesAt_zero, hb]
      · rintro ⟨_, h2⟩
        cases k with
        | zero => rfl
        | succ k =>
          have := h2 0 (Nat.succ_pos k)
          rw [completesAt_zero, hb] at this
          exact absurd this (by simp)
    · have hb0 : (E.LookForOrionPacketInByte p b).2 = false := by simpa using hb
      simp only [firstComplete, hb0, Bool.false_eq_true, if_false]
      cases k with
      | zero =>
        simp [completesAt_zero, hb0]
      | succ k =>
        simp only [Option.map_eq_some', Nat.add_right_cancel_iff, exists_eq_right,
          completesAt_succ]
        rw [ih]
        constructor
        · rintro ⟨h1, h2⟩
          refine ⟨h1, ?_⟩
          intro j hj
          cases j with
          | zero => rw [completesAt_zero, hb0]
          | succ j => rw [completesAt_succ]; exact h2 j (by omega)
        · rintro ⟨h1, h2⟩
          refine ⟨h1, ?_⟩
          intro j hj
          have := h2 (j + 1) (by omega)
          rwa [completesAt_succ] at this

theorem firstComplete_none (E : Env P) (bs : List Nat) (p : P) :
    firstComplete E p bs = none ↔ ∀ k, completesAt E p bs k = false := by
  induction bs generalizing p with
  | nil => simp [firstComplete, completesAt]
  | cons b bs ih =>
    by_cases hb : (E.LookForOrionPacketInByte p b).2 = true
    · simp only [firstComplete, hb, if_true]
      constructor
      · intro h; cases h
      · intro h
        have := h 0
        rw [completesAt_zero, hb] at this
        exact absurd this (by simp)
    · have hb0 : (E.LookForOrionPacketInByte p b).2 = false := by simpa using hb
      simp only [firstComplete, hb0, Bool.false_eq_true, if_false, Option.map_eq_none']
      rw [ih]
      constructor
      · intro h k
        cases k with
        | zero => rw [completesAt_zero, hb0]
        | succ k => rw [completesAt_succ]; exact h k
      · intro h k
        have := h (k + 1)
        rwa [completesAt_succ] at this

theorem feed_cons (E : Env P) (p : P) (b : Nat) (bs : List Nat) :
    feed E p (b :: bs) = feed E (E.LookForOrionPacketInByte p b).1 bs := by
  simp [feed]

theorem feed_append (E : Env P) (p : P) (as bs : List Nat) :
    feed E p (as ++ bs) = feed E (feed E p as) bs := by
  simp [feed]

theorem completions_append (E : Env P) (as bs : List Nat) (p : P) :
    completions E p (as ++ bs) = completions E p as ++ completions E (feed E p as) bs := by
  induction as generalizing p with
  | nil => simp [completions, feed]
  | cons a as ih =>
    by_cases ha : (E.LookForOrionPacketInByte p a).2 = true
    · simp [completions, ha, ih, feed_cons]
    · simp [completions, ha, ih, feed_cons]

/-- The packets held at the completions are the parse buffers right after each byte on
which the assembler reports a complete packet, in the order of the bytes. -/
theorem completions_eq_map (E : Env P) (bs : List Nat) (p : P) :
    completions E p bs =
      ((List.range bs.length).filter (fun k => completesAt E p bs k)).map
        (fun k => feed E p (bs.take (k + 1))) := by
  induction bs generalizing p with
  | nil => simp [completions]
  | cons b bs ih =>
    rw [List.length_cons, List.range_succ_eq_map, List.filter_cons, completesAt_zero]
    have htail : ((List.range bs.length).map Nat.succ).filter
          (fun k => completesAt E p (b :: bs) k)
        = ((List.range bs.length).filter
            (fun k => completesAt E (E.LookForOrionPacketInByte p b).1 bs k)).map Nat.succ := by
      rw [List.filter_map]
      congr 1
      apply List.filter_congr
      intro k _
      simp [Function.comp, completesAt_succ]
    by_cases hb : (E.LookForOrionPacketInByte p b).2 = true
    · simp only [completions, hb, if_true, htail, List.map_cons, List.map_map, ih]
      congr 1
    · have hb0 : (E.LookForOrionPacketInByte p b).2 = false := by simpa using hb
      simp only [completions, hb0, Bool.false_eq_true, if_false, htail, List.map_map, ih]
      congr 1

theorem completions_of_firstComplete_none (E : Env P) (bs : List Nat) (p : P)
    (h : firstComplete E p bs = none) : completions E p bs = [] := by
  induction bs generalizing p with
  | nil => rfl
  | cons b bs ih =>
    by_cases hb : (E.LookForOrionPacketInByte p b).2 = true
    · simp [firstComplete, hb] at h
    · have hb0 : (E.LookForOrionPacketInByte p b).2 = false := by simpa using hb
      simp only [firstComplete, hb0, Bool.false_eq_true, if_false, Option.map_eq_none'] at h
      simp [completions, hb0, ih _ h]

theorem completions_of_firstComplete_some (E : Env P) (bs : List Nat) (p : P) (k : Nat)
    (h : firstComplete E p bs = some k) :
    k < bs.length ∧
    completions E p bs
      = feed E p (bs.take (k + 1)) :: completions E (feed E p (bs.take (k + 1))) (bs.drop (k + 1)) := by
  induction bs generalizing p k with
  | nil => simp [firstComplete] at h
  | cons b bs ih =>
    by_cases hb : (E.LookForOrionPacketInByte p b).2 = true
    · simp only [firstComplete, hb, if_true, Option.some.injEq] at h
      subst h
      simp [completions, hb, feed]
    · have hb0 : (E.LookForOrionPacketInByte p b).2 = false := by simpa using hb
      simp only [firstComplete, hb0, Bool.false_eq_true, if_false, Option.map_eq_some'] at h
      obtain ⟨k', hk', rfl⟩ := h
      obtain ⟨h1, h2⟩ := ih _ _ hk'
      refine ⟨by simp; omega, ?_⟩
      simp [completions, hb0, h2, feed_cons]

/-! ### OrionCommReceive -/

/-- The loop of `OrionCommReceive`, one iteration at a time: the function is one
`read(Handle, &Buffer, 1)`; when it returns 1 the byte goes to the frame assembler, and the
function returns TRUE with the packet when the assembler reports one and starts over when it
does not; when `read` does not return 1 the function returns FALSE. -/
theorem OrionCommReceive_unfold (E : Env P) (s : State P) (pPkt : P) (Buffer : Nat) :
    OrionCommReceive E s pPkt =
      if (sys_read s s.Handle Buffer).1 = 1 then
        if (E.LookForOrionPacketInByte s.Pkt (sys_read s s.Handle Buffer).2.1).2 = true then
          { ret := true,
            pPkt := (E.LookForOrionPacketInByte s.Pkt (sys_read s s.Handle Buffer).2.1).1,
            st := { (sys_read s s.Handle Buffer).2.2 with
                    Pkt := (E.LookForOrionPacketInByte s.Pkt
                      (sys_read s s.Handle Buffer).2.1).1 }.emit
                  (.c_look (sys_read s s.Handle Buffer).2.1 true) }
        else
          OrionCommReceive E
            ({ (sys_read s s.Handle Buffer).2.2 with
               Pkt := (E.LookForOrionPacketInByte s.Pkt
                 (sys_read s s.Handle Buffer).2.1).1 }.emit
             (.c_look (sys_read s s.Handle Buffer).2.1 false)) pPkt
      else
        { ret := false, pPkt := pPkt, st := (sys_read s s.Handle Buffer).2.2 } := by
  by_cases ho : s.isOpen s.Handle = true
  · cases hrx : s.rx with
    | nil =>
      have hread : s.readable s.Handle = [] := by simp [State.readable, hrx]
      simp [OrionCommReceive, sys_read, hread, receiveLoop]
    | cons b rest =>
      have hread : s.readable s.Handle = b :: rest := by simp [State.readable, ho, hrx]
      by_cases hb : (E.LookForOrionPacketInByte s.Pkt b).2 = true
      · simp [OrionCommReceive, sys_read, hread, receiveLoop, hb, State.emit]
      · have hnext : State.readable
            ({ ({ s with rx := rest } : State P).emit (.c_read s.Handle 1) with
               Pkt := (E.LookForOrionPacketInByte s.Pkt b).1 }.emit (.c_look b false))
            s.Handle = rest := by
          have ho2 := ho
          simp only [State.isOpen] at ho2
          simp [State.readable, State.isOpen, State.emit, ho2]
        have hb0 : (E.LookForOrionPacketInByte s.Pkt b).2 = false := by simpa using hb
        simp only [OrionCommReceive, sys_read, hread, receiveLoop, hb0, Bool.false_eq_true,
          if_false, if_true]
        simp only [State.emit] at hnext ⊢
        rw [hnext]
        simp [hb0]
  · have hread : s.readable s.Handle = [] := by simp [State.readable, ho]
    simp [OrionCommReceive, sys_read, hread, receiveLoop]

theorem receiveLoop_frame (E : Env P) (pPkt : P) (bs : List Nat) (s : State P) :
    (receiveLoop E pPkt s bs).st.Handle = s.Handle ∧
    (receiveLoop E pPkt s bs).st.fds = s.fds ∧
    (receiveLoop E pPkt s bs).st.owned = s.owned ∧
    (receiveLoop E pPkt s bs).st.SockAddr = s.SockAddr := by
  induction bs generalizing s with
  | nil => simp [receiveLoop, State.emit]
  | cons b bs ih =>
    by_cases hb : (E.LookForOrionPacketInByte s.Pkt b).2 = true
    · simp [receiveLoop, State.emit, hb]
    · simp only [receiveLoop, State.emit, hb, Bool.false_eq_true, if_false]
      simpa using ih _

theorem receiveLoop_complete (E : Env P) (pPkt : P) (bs : List Nat) (s : State P) (k : Nat)
    (h : firstComplete E s.Pkt bs = some k) :
    (receiveLoop E pPkt s bs).ret = true ∧
    (receiveLoop E pPkt s bs).pPkt = feed E s.Pkt (bs.take (k + 1)) ∧
    (receiveLoop E pPkt s bs).st.Pkt = feed E s.Pkt (bs.take (k + 1)) ∧
    (receiveLoop E pPkt s bs).st.rx = bs.drop (k + 1) ∧
    ∃ evs, (receiveLoop E pPkt s bs).st.log = s.log ++ evs ∧
      evs.filterMap Event.lookByte = bs.take (k + 1) := by
  induction bs generalizing s k with
  | nil => simp [firstComplete] at h
  | cons b bs ih =>
    by_cases hb : (E.LookForOrionPacketInByte s.Pkt b).2 = true
    · simp only [firstComplete, hb, if_true, Option.some.injEq] at h
      subst h
      simp only [receiveLoop, State.emit, hb, if_true]
      refine ⟨trivial, ?_, ?_, ?_, ?_⟩
      · simp [feed]
      · simp [feed]
      · simp
      · exact ⟨[.c_read s.Handle 1, .c_look b true], by simp, by simp [Event.lookByte]⟩
    · have hb0 : (E.LookForOrionPacketInByte s.Pkt b).2 = false := by simpa using hb
      simp only [firstComplete, hb0, Bool.false_eq_true, if_false, Option.map_eq_some'] at h
      obtain ⟨k', hk', rfl⟩ := h
      simp only [receiveLoop, State.emit, hb0, Bool.false_eq_true, if_false]
      obtain ⟨h1, h2, h3, h4, evs, h5, h6⟩ :=
        ih { s with rx := bs, log := s.log ++ [.c_read s.Handle 1] ++ [.c_look b false],
                    Pkt := (E.LookForOrionPacketInByte s.Pkt b).1 } k' hk'
      simp only [List.append_assoc] at h1 h2 h3 h4 h5 ⊢
      refine ⟨h1, ?_, ?_, ?_, ?_⟩
      · rw [h2]; simp [feed]
      · rw [h3]; simp [feed]
      · rw [h4]; simp
      · refine ⟨[.c_read s.Handle 1, .c_look b false] ++ evs, ?_, ?_⟩
        · rw [h5]; simp
        · simp [Event.lookByte, h6]

theorem receiveLoop_incomplete (E : Env P) (pPkt : P) (bs : List Nat) (s : State P)
    (h : firstComplete E s.Pkt bs = none) :
    (receiveLoop E pPkt s bs).ret = false ∧
    (receiveLoop E pPkt s bs).pPkt = pPkt ∧
    (receiveLoop E pPkt s bs).st.Pkt = feed E s.Pkt bs ∧
    (receiveLoop E pPkt s bs).st.rx = (if bs = [] then s.rx else []) ∧
    ∃ evs, (receiveLoop E pPkt s bs).st.log = s.log ++ evs ∧
      evs.filterMap Event.lookByte = bs := by
  induction bs generalizing s with
  | nil =>
    simp only [receiveLoop, State.emit, feed, List.foldl_nil, if_true, true_and]
    exact ⟨[.c_read s.Handle (-1)], rfl, by simp [Event.lookByte]⟩
  | cons b bs ih =>
    by_cases hb : (E.LookForOrionPacketInByte s.Pkt b).2 = true
    · simp [firstComplete, hb] at h
    · have hb0 : (E.LookForOrionPacketInByte s.Pkt b).2 = false := by simpa using hb
      simp only [firstComplete, hb0, Bool.false_eq_true, if_false, Option.map_eq_none'] at h
      simp only [receiveLoop, State.emit, hb0, Bool.false_eq_true, if_false]
      obtain ⟨h1, h2, h3, h4, evs, h5, h6⟩ :=
        ih { s with rx := bs, log := s.log ++ [.c_read s.Handle 1] ++ [.c_look b false],
                    Pkt := (E.LookForOrionPacketInByte s.Pkt b).1 } h
      simp only [List.append_assoc] at h1 h2 h3 h4 h5 ⊢
      refine ⟨h1, h2, ?_, ?_, ?_⟩
      · rw [h3]; simp [feed]
      · rw [h4]; simp
      · refine ⟨[.c_read s.Handle 1, .c_look b false] ++ evs, ?_, ?_⟩
        · rw [h5]; simp
        · simp [Event.lookByte, h6]

theorem readable_eq (s : State P) (h : s.readable s.Handle ≠ []) :
    s.readable s.Handle = s.rx := by
  unfold State.readable at h ⊢
  split <;> simp_all

/-- Claim C2 (one call of `OrionCommReceive`), for every state and every buffer of the caller.
The available bytes are `s.readable s.Handle`: the pending bytes, or none when the
descriptor is not open and every `read` fails.  (1) The call returns TRUE exactly when the
frame assembler reports a complete packet on some available byte.  (2) When `k` is the index
of the first such byte, the bytes handed to the assembler are the first `k + 1` available
bytes, exactly these have left the queue, the parse buffer is the result of feeding them and
the buffer of the caller holds that packet.  (3) When the call returns FALSE the buffer of
the caller is unchanged, every available byte was consumed and fed, and the parse buffer is
the result of feeding them.  (4) With no byte available the call returns FALSE, the assembler
is not invoked, and the parse buffer and the queue are unchanged. -/
theorem OrionCommReceive_single_call (E : Env P) (s : State P) (pPkt : P) :
    ((OrionCommReceive E s pPkt).ret = true ↔
      ∃ k, completesAt E s.Pkt (s.readable s.Handle) k = true) ∧
    (∀ k, completesAt E s.Pkt (s.readable s.Handle) k = true →
      (∀ j, j < k → completesAt E s.Pkt (s.readable s.Handle) j = false) →
      fedBytes s (OrionCommReceive E s pPkt).st = (s.readable s.Handle).take (k + 1) ∧
      (OrionCommReceive E s pPkt).st.rx = s.rx.drop (k + 1) ∧
      (OrionCommReceive E s pPkt).st.Pkt = feed E s.Pkt ((s.readable s.Handle).take (k + 1)) ∧
      (OrionCommReceive E s pPkt).pPkt = (OrionCommReceive E s pPkt).st.Pkt) ∧
    ((OrionCommReceive E s pPkt).ret = false →
      (OrionCommReceive E s pPkt).pPkt = pPkt ∧
      fedBytes s (OrionCommReceive E s pPkt).st = s.readable s.Handle ∧
      (OrionCommReceive E s pPkt).st.rx = s.rx.drop (s.readable s.Handle).length ∧
      (OrionCommReceive E s pPkt).st.Pkt = feed E s.Pkt (s.readable s.Handle)) ∧
    (s.readable s.Handle = [] →
      (OrionCommReceive E s pPkt).ret = false ∧
      fedBytes s (OrionCommReceive E s pPkt).st = [] ∧
      (OrionCommReceive E s pPkt).st.Pkt = s.Pkt ∧
      (OrionCommReceive E s pPkt).st.rx = s.rx) := by
  have hnone := receiveLoop_incomplete E pPkt (s.readable s.Handle) s
  have hsome := receiveLoop_complete E pPkt (s.readable s.Handle) s
  have hrx : (if s.readable s.Handle = [] then s.rx else [])
      = s.rx.drop (s.readable s.Handle).length := by
    by_cases hr : s.readable s.Handle = []
    · simp [hr]
    · rw [if_neg hr, readable_eq s hr]; simp
  unfold OrionCommReceive
  cases hfc : firstComplete E s.Pkt (s.readable s.Handle) with
  | none =>
    obtain ⟨h1, h2, h3, h4, evs, h5, h6⟩ := hnone hfc
    have hall := (firstComplete_none E _ _).1 hfc
    have hfed : fedBytes s (receiveLoop E pPkt s (s.readable s.Handle)).st
        = s.readable s.Handle := by
      simp [fedBytes, emitted, h5, h6]
    refine ⟨?_, ?_, ?_, ?_⟩
    · simp [h1, hall]
    · intro k hk; rw [hall k] at hk; exact absurd hk (by simp)
    · intro _
      refine ⟨h2, hfed, ?_, h3⟩
      rw [h4, hrx]
    · intro hr
      refine ⟨h1, hfed.trans hr, ?_, ?_⟩
      · rw [h3, hr]; rfl
      · rw [h4, hr]; simp
  | some k =>
    obtain ⟨h1, h2, h3, h4, evs, h5, h6⟩ := hsome k hfc
    obtain ⟨hk, hmin⟩ := (firstComplete_some E _ _ _).1 hfc
    have hne : s.readable s.Handle ≠ [] := by
      intro hr
      have := completesAt_lt E _ _ _ hk
      simp [hr] at this
    refine ⟨?_, ?_, ?_, ?_⟩
    · simp only [h1, true_iff]; exact ⟨k, hk⟩
    · intro k' hk' hmin'
      have hkk : k' = k := by
        rcases Nat.lt_trichotomy k' k with hlt | heq | hgt
        · rw [hmin k' hlt] at hk'; exact absurd hk' (by simp)
        · exact heq
        · rw [hmin' k hgt] at hk; exact absurd hk (by simp)
      subst hkk
      refine ⟨?_, ?_, h3, ?_⟩
      · simp [fedBytes, emitted, h5, h6]
      · rw [h4, readable_eq s hne]
      · rw [h2, h3]
    · intro hf; rw [h1] at hf; exact absurd hf (by simp)
    · intro hr; exact absurd hr hne

/-- Repeated calls of `OrionCommReceive` on an open handle deliver the packets of the
completions on the pending bytes and end with a FALSE call that leaves nothing pending. -/
theorem receiveCalls_spec (E : Env P) (n : Nat) (s : State P) (pPkt : P)
    (hopen : s.isOpen s.Handle = true) (hn : s.rx.length < n) :
    ∃ t, receiveCalls E n s pPkt = (completions E s.Pkt s.rx, some t) ∧
      t.Pkt = feed E s.Pkt s.rx ∧ t.rx = [] ∧ t.Handle = s.Handle ∧ t.fds = s.fds := by
  induction n generalizing s pPkt with
  | zero => omega
  | succ n ih =>
    have hread : s.readable s.Handle = s.rx := by simp [State.readable, hopen]
    have hframe := receiveLoop_frame E pPkt s.rx s
    cases hfc : firstComplete E s.Pkt s.rx with
    | none =>
      obtain ⟨h1, h2, h3, h4, -⟩ := receiveLoop_incomplete E pPkt s.rx s hfc
      refine ⟨(receiveLoop E pPkt s s.rx).st, ?_, h3, ?_, hframe.1, hframe.2.1⟩
      · simp [receiveCalls, OrionCommReceive, hread, h1,
          completions_of_firstComplete_none E _ _ hfc]
      · rw [h4]; split <;> simp_all
    | some k =>
      obtain ⟨h1, h2, h3, h4, -⟩ := receiveLoop_complete E pPkt s.rx s k hfc
      obtain ⟨hk, hc⟩ := completions_of_firstComplete_some E _ _ _ hfc
      have hopen' : (receiveLoop E pPkt s s.rx).st.isOpen (receiveLoop E pPkt s s.rx).st.Handle
          = true := by
        simpa [State.isOpen, hframe.1, hframe.2.1] using hopen
      have hlen : (receiveLoop E pPkt s s.rx).st.rx.length < n := by
        rw [h4]; simp; omega
      obtain ⟨t, ht, ht1, ht2, ht3, ht4⟩ :=
        ih (receiveLoop E pPkt s s.rx).st (receiveLoop E pPkt s s.rx).pPkt hopen' hlen
      refine ⟨t, ?_, ?_, ht2, ?_, ?_⟩
      · simp only [receiveCalls, OrionCommReceive, hread, h1, if_true, ht, hc]
        rw [h2, h3, h4]
      · rw [ht1, h3, h4, ← feed_append, List.take_append_drop]
      · rw [ht3, hframe.1]
      · rw [ht4, hframe.2.1]

/-- Claim C1 (framing round trip across calls of `OrionCommReceive`).  The packets the frame
assembler holds at its completions on a stream (`completions`) are the parse buffers right
after each byte on which it reports a complete packet, in the order of the bytes.  With the
handle open and the byte stream `s.rx` pending, repeated calls of `OrionCommReceive` (`n`
calls allowed, more than there are bytes) return TRUE once for every completion the frame
assembler reports on the stream and then FALSE: the packets delivered are, in order, the
packets the assembler held at its completions.  After the FALSE call nothing is pending and the parse buffer is the
one obtained by feeding the whole stream, so a trailing partial packet is retained: when
further bytes `more` are appended to the queue, the later calls deliver the completions of
`more` from that parse buffer, and the packets of both rounds together are the completions
of the stream `s.rx ++ more`. -/
theorem OrionCommReceive_framing_round_trip (E : Env P) (s : State P) (pPkt : P) (n : Nat)
    (hopen : s.isOpen s.Handle = true) (hn : s.rx.length < n) :
    completions E s.Pkt s.rx =
      ((List.range s.rx.length).filter (fun k => completesAt E s.Pkt s.rx k)).map
        (fun k => feed E s.Pkt (s.rx.take (k + 1))) ∧
    ∃ t, receiveCalls E n s pPkt = (completions E s.Pkt s.rx, some t) ∧
      t.Pkt = feed E s.Pkt s.rx ∧ t.rx = [] ∧
      ∀ (more : List Nat) (q : P) (m : Nat), more.length < m →
        ∃ u, receiveCalls E m { t with rx := t.rx ++ more } q
              = (completions E t.Pkt more, some u) ∧
          completions E s.Pkt s.rx ++ completions E t.Pkt more
              = completions E s.Pkt (s.rx ++ more) ∧
          u.Pkt = feed E s.Pkt (s.rx ++ more) ∧ u.rx = [] := by
  obtain ⟨t, ht, ht1, ht2, ht3, ht4⟩ := receiveCalls_spec E n s pPkt hopen hn
  refine ⟨completions_eq_map E s.rx s.Pkt, t, ht, ht1, ht2, ?_⟩
  intro more q m hm
  have hopen' : ({ t with rx := t.rx ++ more } : State P).isOpen
      ({ t with rx := t.rx ++ more } : State P).Handle = true := by
    simpa [State.isOpen, ht3, ht4] using hopen
  obtain ⟨u, hu, hu1, hu2, -, -⟩ :=
    receiveCalls_spec E m { t with rx := t.rx ++ more } q hopen' (by simp [ht2]; exact hm)
  simp only [ht2, List.nil_append] at hu hu1 ⊢
  refine ⟨u, hu, ?_, ?_, hu2⟩
  · rw [completions_append, ht1]
  · rw [hu1, ht1, feed_append]

/-- Claim C1 at a concrete input: two packets and the first byte of a third are pending on
descriptor 3; two calls return the two packets, the third call returns FALSE and keeps the
partial packet. -/
theorem OrionCommReceive_framing_round_trip_witness :
    (toyOpen.isOpen toyOpen.Handle = true ∧ toyOpen.rx.length < 7) ∧
    ∃ t, receiveCalls toyEnv 7 toyOpen [] = ([[1, 2, 0], [3, 0]], some t) ∧
      t.Pkt = [4] ∧ t.rx = [] :=
  ⟨by decide,
   (OrionCommReceive_framing_round_trip toyEnv toyOpen [] 7 (by decide) (by decide)).2.imp
     (fun _ ht => ⟨ht.1, ht.2.1, ht.2.2.1⟩)⟩

/-! ### OrionCommClose and OrionCommSend -/

theorem noTransport_of_not_open (E : Env P) (t : State P) (h : t.isOpen t.Handle = false) :
    NoTransport E t := by
  refine ⟨?_, ?_, ?_⟩
  · intro pkt wr
    simp [OrionCommSend, sys_write, State.osRet, h]
  · intro pPkt
    simp [OrionCommReceive, State.readable, h, receiveLoop, State.emit, fedBytes, emitted,
      Event.lookByte]
  · simp [OrionCommClose, sys_close, h]

theorem close_not_open (s : State P) :
    (OrionCommClose s).Handle = s.Handle ∧ (OrionCommClose s).isOpen s.Handle = false := by
  unfold OrionCommClose sys_close
  by_cases h : s.isOpen s.Handle = true
  · rw [if_pos h]
    simp [State.emit, State.isOpen]
  · have h0 : s.isOpen s.Handle = false := by simpa using h
    rw [if_neg h]
    refine ⟨rfl, ?_⟩
    simpa [State.emit, State.isOpen] using h0

/-- Claim C8 (`OrionCommClose` twice).  For every state: the second of two calls of
`OrionCommClose` in a row does nothing but issue a `close` on the unchanged `Handle`, which
the operating system rejects with -1; after one call and after two calls no transport is
usable (`NoTransport`): `OrionCommSend` returns FALSE for every packet and every answer of
`write`, `OrionCommReceive` returns FALSE, consumes no byte, hands none to the assembler and
leaves the parse buffer and the buffer of the caller unchanged.  The same holds in every
state with `Handle = -1`, where `OrionCommClose` issues a `close(-1)` that is rejected. -/
theorem OrionCommClose_idempotent (E : Env P) (s : State P) :
    OrionCommClose (OrionCommClose s) = (OrionCommClose s).emit (.c_close s.Handle (-1)) ∧
    NoTransport E (OrionCommClose s) ∧
    NoTransport E (OrionCommClose (OrionCommClose s)) ∧
    (s.Handle = -1 →
      NoTransport E s ∧ OrionCommClose s = s.emit (.c_close (-1) (-1))) := by
  obtain ⟨hH, hO⟩ := close_not_open s
  have hO1 : (OrionCommClose s).isOpen (OrionCommClose s).Handle = false := by rw [hH]; exact hO
  have h1 := noTransport_of_not_open E _ hO1
  obtain ⟨hH2, hO2⟩ := close_not_open (OrionCommClose s)
  have hO3 : (OrionCommClose (OrionCommClose s)).isOpen
      (OrionCommClose (OrionCommClose s)).Handle = false := by rw [hH2]; exact hO2
  refine ⟨?_, h1, noTransport_of_not_open E _ hO3, ?_⟩
  · have := h1.2.2
    rwa [hH] at this
  · intro hm
    have hs : s.isOpen s.Handle = false := by simp [State.isOpen, hm]
    have := noTransport_of_not_open E s hs
    refine ⟨this, ?_⟩
    have h3 := this.2.2
    rwa [hm] at h3

/-- Claim C9 (`OrionCommSend`).  For every state, packet and answer `wr` of the operating
system: the function makes exactly one call, a `write` on `Handle` of the packet with length
`Length + ORION_PKT_OVERHEAD`; it returns TRUE exactly when that `write` returns a positive
value; on an open handle the value is `wr`, so every positive `wr`, also one smaller than
the length asked for, gives TRUE with no second `write`; `wr ≤ 0` gives FALSE. -/
theorem OrionCommSend_single_write (E : Env P) (s : State P) (pPkt : P) (wr : Int) :
    emitted s (OrionCommSend E s pPkt wr).2
      = [.c_write s.Handle pPkt (E.Length pPkt + E.ORION_PKT_OVERHEAD) (s.osRet s.Handle wr)] ∧
    ((OrionCommSend E s pPkt wr).1 = true ↔ 0 < s.osRet s.Handle wr) ∧
    (s.isOpen s.Handle = true → s.osRet s.Handle wr = wr) ∧
    (s.isOpen s.Handle = true → 0 < wr → (OrionCommSend E s pPkt wr).1 = true) ∧
    (wr ≤ 0 → (OrionCommSend E s pPkt wr).1 = false) := by
  refine ⟨?_, ?_, ?_, ?_, ?_⟩
  · simp [OrionCommSend, sys_write, State.emit, emitted]
  · simp [OrionCommSend, sys_write]
  · intro h; simp [State.osRet, h]
  · intro h hw; simp [OrionCommSend, sys_write, State.osRet, h, hw]
  · intro hw
    simp only [OrionCommSend, sys_write, State.osRet, gt_iff_lt, decide_eq_false_iff_not, not_lt]
    split <;> omega

/-! ### Byte order and GetSockAddr -/

theorem bswap32_bswap32 (x : Nat) (h : x < 2 ^ 32) : bswap32 (bswap32 x) = x := by
  unfold bswap32
  have h0 : x % 256 < 256 := Nat.mod_lt _ (by norm_num)
  have h1 : x / 256 % 256 < 256 := Nat.mod_lt _ (by norm_num)
  have h2 : x / 65536 % 256 < 256 := Nat.mod_lt _ (by norm_num)
  have h3 : x / 16777216 % 256 < 256 := Nat.mod_lt _ (by norm_num)
  have hx : x = x % 256 + 256 * (x / 256 % 256) + 65536 * (x / 65536 % 256)
      + 16777216 * (x / 16777216 % 256) := by omega
  generalize x % 256 = b0 at h0 hx ⊢
  generalize x / 256 % 256 = b1 at h1 hx ⊢
  generalize x / 65536 % 256 = b2 at h2 hx ⊢
  generalize x / 16777216 % 256 = b3 at h3 hx ⊢
  have d1 : (b0 * 16777216 + b1 * 65536 + b2 * 256 + b3) / 256
      = b0 * 65536 + b1 * 256 + b2 := by omega
  have d2 : (b0 * 16777216 + b1 * 65536 + b2 * 256 + b3) / 65536 = b0 * 256 + b1 := by omega
  have d3 : (b0 * 16777216 + b1 * 65536 + b2 * 256 + b3) / 16777216 = b0 := by omega
  have m0 : (b0 * 16777216 + b1 * 65536 + b2 * 256 + b3) % 256 = b3 := by omega
  have m1 : (b0 * 65536 + b1 * 256 + b2) % 256 = b2 := by omega
  have m2 : (b0 * 256 + b1) % 256 = b1 := by omega
  have m3 : b0 % 256 = b0 := by omega
  rw [d1, d2, d3, m0, m1, m2, m3]
  omega

theorem bswap32_lt (x : Nat) : bswap32 x < 2 ^ 32 := by
  unfold bswap32
  omega

theorem bswap16_bswap16 (x : Nat) (h : x < 2 ^ 16) : bswap16 (bswap16 x) = x := by
  unfold bswap16
  have h0 : x % 256 < 256 := Nat.mod_lt _ (by norm_num)
  have h1 : x / 256 % 256 < 256 := Nat.mod_lt _ (by norm_num)
  have hx : x = x % 256 + 256 * (x / 256 % 256) := by omega
  generalize x % 256 = b0 at h0 hx ⊢
  generalize x / 256 % 256 = b1 at h1 hx ⊢
  have e1 : (b0 * 256 + b1) % 256 = b1 := by omega
  have e0 : (b0 * 256 + b1) / 256 % 256 = b0 := by omega
  rw [e1, e0]; omega

theorem bswap16_lt (x : Nat) : bswap16 x < 2 ^ 16 := by
  unfold bswap16
  omega

/-- Network byte order and back gives the address. -/
theorem ntohl_htonl (E : Env P) (x : Nat) (h : x < 2 ^ 32) : ntohl E (htonl E x) = x := by
  unfold ntohl htonl
  split
  · rw [Nat.mod_eq_of_lt h, Nat.mod_eq_of_lt (bswap32_lt x), bswap32_bswap32 x h]
  · rw [Nat.mod_mod, Nat.mod_eq_of_lt h]

/-- Network byte order and back gives the port. -/
theorem ntohs_htons (E : Env P) (x : Nat) (h : x < 2 ^ 16) : ntohs E (htons E x) = x := by
  unfold ntohs htons
  split
  · rw [Nat.mod_eq_of_lt h, Nat.mod_eq_of_lt (bswap16_lt x), bswap16_bswap16 x h]
  · rw [Nat.mod_mod, Nat.mod_eq_of_lt h]

theorem GetSockAddr_eq (E : Env P) (s : State P) (a p : Nat) :
    GetSockAddr E s a p = { s with SockAddr := sockAddrOf E s.SockAddr a p } := by
  unfold GetSockAddr sockAddrOf
  by_cases h : a % 2 ^ 32 ≠ 0 ∨ p % 2 ^ 16 ≠ 0
  · simp only [h, if_true]
  · simp only [h, if_false]

theorem sockAddrOf_zero (E : Env P) (old : SockAddrIn) : sockAddrOf E old 0 0 = old := by
  simp [sockAddrOf]

theorem sockAddrOf_broadcast_eq (E : Env P) (old : SockAddrIn) :
    sockAddrOf E old INADDR_BROADCAST E.UDP_OUT_PORT = broadcastAddr E := by
  simp [sockAddrOf, broadcastAddr, INADDR_BROADCAST]

theorem sockAddrOf_port (E : Env P) (old : SockAddrIn) (a p : Nat)
    (hp : 0 < p) (hp16 : p < 2 ^ 16) (ha : a < 2 ^ 32) :
    sockAddrOf E old a p = { sin_family := AF_INET, sin_port := htons E p, sin_addr := htonl E a } := by
  have h1 : p % 2 ^ 16 = p := Nat.mod_eq_of_lt hp16
  have h2 : a % 2 ^ 32 = a := Nat.mod_eq_of_lt ha
  have h3 : p ≠ 0 := by omega
  simp only [sockAddrOf, h1, h2]
  simp [h3]

/-! ### OrionCommOpenNetwork -/

theorem connectToGimbal_ok (E : Env P) (o : NetOS) (u : Nat) (s : State P)
    (h : u ∈ s.fds) (hok : o.tcpSocketOk = true) :
    connectToGimbal E o u s =
      { s with
        Handle := (lowestFree s.fds : Int),
        SockAddr := sockAddrOf E (sockAddrOf E s.SockAddr INADDR_ANY E.TCP_PORT)
          (ntohl E s.SockAddr.sin_addr) E.TCP_PORT,
        fds := lowestFree s.fds :: s.fds.filter (fun n => decide (n ≠ u)),
        owned := lowestFree s.fds :: s.owned.filter (fun n => decide (n ≠ u)),
        log := s.log ++ connectLog E o u (lowestFree s.fds) s.SockAddr id } := by
  have hne : lowestFree s.fds ≠ u := fun e => lowestFree_not_mem s.fds (e ▸ h)
  simp only [connectToGimbal, ite_emit]
  simp only [GetSockAddr_eq, sys_socket, sys_setsockopt, sys_bind, sys_connect,
    sys_close, State.alloc, State.emit, State.osRet, State.isOpen, hok, if_true, sockAddrOf_zero]
  simp [h, hne, connectLog]

theorem connectToGimbal_fails (E : Env P) (o : NetOS) (u : Nat) (s : State P)
    (h : u ∈ s.fds) (hok : o.tcpSocketOk = false) :
    connectToGimbal E o u s =
      { s with
        Handle := -1,
        SockAddr := sockAddrOf E (sockAddrOf E s.SockAddr INADDR_ANY E.TCP_PORT)
          (ntohl E s.SockAddr.sin_addr) E.TCP_PORT,
        fds := s.fds.filter (fun n => decide (n ≠ u)),
        owned := s.owned.filter (fun n => decide (n ≠ u)),
        log := s.log ++ connectLog E o u (-1) s.SockAddr (fun _ => -1) } := by
  simp only [connectToGimbal, ite_emit]
  simp only [GetSockAddr_eq, sys_socket, sys_setsockopt, sys_bind, sys_connect,
    sys_close, State.alloc, State.emit, State.osRet, State.isOpen, hok, sockAddrOf_zero]
  simp [h, connectLog]

theorem probeLoop_silent (E : Env P) (o : NetOS) (u : Nat) (Pkt : P) (n : Nat)
    (probes : List ProbeOS) (s : State P) (h : u ∈ s.fds)
    (hs : (probes.headD ProbeOS.silent).recvfrom ≤ 0) :
    ∃ sa, probeLoop E o u Pkt (n + 1) probes s =
      probeLoop E o u Pkt n probes.tail
        { s with SockAddr := sa,
                 log := s.log ++ probeLog E u Pkt 1 probes } := by
  simp only [probeLoop, probeLog]
  generalize probes.headD ProbeOS.silent = p at hs ⊢
  rcases lt_or_eq_of_le hs with hlt | heq
  · refine ⟨sockAddrOf E (broadcastAddr E) INADDR_ANY E.UDP_IN_PORT, ?_⟩
    have hn : ¬ (0 < p.recvfrom) := by omega
    have hn2 : ¬ (0 ≤ p.recvfrom) := by omega
    simp only [GetSockAddr_eq, sys_sendto, sys_recvfrom, State.emit, State.osRet,
      State.isOpen, sockAddrOf_broadcast_eq]
    simp [h, hn, hn2]
  · refine ⟨replyAddr E p, ?_⟩
    simp only [GetSockAddr_eq, sys_sendto, sys_recvfrom, State.emit, State.osRet,
      State.isOpen, sockAddrOf_broadcast_eq]
    simp [h, heq, replyAddr]

theorem probeLoop_reply (E : Env P) (o : NetOS) (u : Nat) (Pkt : P) (n : Nat)
    (probes : List ProbeOS) (s : State P) (h : u ∈ s.fds)
    (hr : (probes.headD ProbeOS.silent).recvfrom > 0) :
    probeLoop E o u Pkt (n + 1) probes s =
      connectToGimbal E o u
        { s with SockAddr := replyAddr E (probes.headD ProbeOS.silent),
                 log := s.log ++ probeLog E u Pkt 1 probes } := by
  simp only [probeLoop, probeLog]
  generalize probes.headD ProbeOS.silent = p at hr ⊢
  have hr1 : 0 < p.recvfrom := hr
  have hn2 : 0 ≤ p.recvfrom := by omega
  simp only [GetSockAddr_eq, sys_sendto, sys_recvfrom, State.emit, State.osRet,
    State.isOpen, sockAddrOf_broadcast_eq]
  simp [h, hr1, hn2, replyAddr]

theorem getD_tail (probes : List ProbeOS) (i : Nat) :
    probes.tail.getD i ProbeOS.silent = probes.getD (i + 1) ProbeOS.silent := by
  cases probes <;> simp

theorem headD_eq_getD (probes : List ProbeOS) :
    probes.headD ProbeOS.silent = probes.getD 0 ProbeOS.silent := by
  cases probes <;> simp

theorem probeLog_succ (E : Env P) (u : Nat) (Pkt : P) (n : Nat) (probes : List ProbeOS) :
    probeLog E u Pkt (n + 1) probes = probeLog E u Pkt 1 probes ++ probeLog E u Pkt n probes.tail := by
  simp [probeLog]

theorem probeLoop_timeout (E : Env P) (o : NetOS) (u : Nat) (Pkt : P) (n : Nat)
    (probes : List ProbeOS) (s : State P) (h : u ∈ s.fds)
    (hs : ∀ i, i < n → (probes.getD i ProbeOS.silent).recvfrom ≤ 0) :
    ∃ sa, probeLoop E o u Pkt n probes s =
      { s with SockAddr := sa, log := s.log ++ probeLog E u Pkt n probes } := by
  induction n generalizing probes s with
  | zero => exact ⟨s.SockAddr, by simp [probeLoop, probeLog]⟩
  | succ n ih =>
    have h0 : (probes.headD ProbeOS.silent).recvfrom ≤ 0 := by
      rw [headD_eq_getD]; exact hs 0 (Nat.succ_pos n)
    obtain ⟨sa, hsa⟩ := probeLoop_silent E o u Pkt n probes s h h0
    obtain ⟨sb, hsb⟩ := ih probes.tail
      { s with SockAddr := sa, log := s.log ++ probeLog E u Pkt 1 probes } h
      (fun i hi => by rw [getD_tail]; exact hs (i + 1) (by omega))
    refine ⟨sb, ?_⟩
    rw [hsa, hsb, probeLog_succ E u Pkt n]
    simp

theorem probeLoop_discovers (E : Env P) (o : NetOS) (u : Nat) (Pkt : P) (k n : Nat)
    (probes : List ProbeOS) (s : State P) (h : u ∈ s.fds) (hk : k < n)
    (hs : ∀ i, i < k → (probes.getD i ProbeOS.silent).recvfrom ≤ 0)
    (hr : (probes.getD k ProbeOS.silent).recvfrom > 0) :
    probeLoop E o u Pkt n probes s =
      connectToGimbal E o u
        { s with SockAddr := replyAddr E (probes.getD k ProbeOS.silent),
                 log := s.log ++ probeLog E u Pkt (k + 1) probes } := by
  induction k generalizing n probes s with
  | zero =>
    obtain ⟨m, rfl⟩ : ∃ m, n = m + 1 := ⟨n - 1, by omega⟩
    rw [← headD_eq_getD] at hr ⊢
    exact probeLoop_reply E o u Pkt m probes s h hr
  | succ k ih =>
    obtain ⟨m, rfl⟩ : ∃ m, n = m + 1 := ⟨n - 1, by omega⟩
    have h0 : (probes.headD ProbeOS.silent).recvfrom ≤ 0 := by
      rw [headD_eq_getD]; exact hs 0 (Nat.succ_pos k)
    obtain ⟨sa, hsa⟩ := probeLoop_silent E o u Pkt m probes s h h0
    rw [hsa, ih m probes.tail
      { s with SockAddr := sa, log := s.log ++ probeLog E u Pkt 1 probes } h (by omega)
      (fun i hi => by rw [getD_tail]; exact hs (i + 1) (by omega))
      (by rw [getD_tail]; exact hr), probeLog_succ E u Pkt (k + 1), getD_tail]
    simp

theorem OrionCommOpenNetwork_eq_loop (E : Env P) (s : State P) (o : NetOS)
    (h : o.udpSocketOk = true) :
    OrionCommOpenNetwork E s o =
      (decide ((probeLoop E o (lowestFree s.fds)
          (E.MakeOrionPacket E.ORION_PKT_CROWN_VERSION 0) 50 o.probes
          (loopStart E o s)).Handle ≠ -1),
       probeLoop E o (lowestFree s.fds)
          (E.MakeOrionPacket E.ORION_PKT_CROWN_VERSION 0) 50 o.probes (loopStart E o s)) := by
  unfold OrionCommOpenNetwork
  simp only [ite_emit]
  simp only [GetSockAddr_eq, sys_socket, sys_setsockopt, sys_bind, State.alloc, State.emit,
    State.osRet, State.isOpen, h, if_true]
  simp [loopStart, udpSetupLog]

theorem OrionCommOpenNetwork_no_socket (E : Env P) (s : State P) (o : NetOS)
    (h : o.udpSocketOk = false) :
    OrionCommOpenNetwork E s o
      = (decide (s.Handle ≠ -1), s.emit (.c_socket .SOCK_DGRAM (-1))) := by
  simp [OrionCommOpenNetwork, sys_socket, State.alloc, State.emit, h]

theorem probeLog_counts (E : Env P) (u : Nat) (Pkt : P) (n : Nat) (probes : List ProbeOS) :
    (probeLog E u Pkt n probes).countP Event.isSendto = n ∧
    (probeLog E u Pkt n probes).countP Event.isRecvfrom = n ∧
    (probeLog E u Pkt n probes).filter Event.isConnect = [] ∧
    (probeLog E u Pkt n probes).filter Event.isClose = [] ∧
    (probeLog E u Pkt n probes).filter Event.isSocket = [] ∧
    (probeLog E u Pkt n probes).filter Event.isBind = [] := by
  induction n generalizing probes with
  | zero => simp [probeLog]
  | succ n ih =>
    obtain ⟨h1, h2, h3, h4, h5, h6⟩ := ih probes.tail
    simp [probeLog, Event.isSendto, Event.isRecvfrom, Event.isConnect, Event.isClose,
      Event.isSocket, Event.isBind, h1, h2, h3, h4, h5, h6]

theorem udpSetupLog_counts (E : Env P) (o : NetOS) (u : Int) (sa : SockAddrIn) :
    (udpSetupLog E o u sa).countP Event.isSendto = 0 ∧
    (udpSetupLog E o u sa).countP Event.isRecvfrom = 0 ∧
    (udpSetupLog E o u sa).filter Event.isConnect = [] ∧
    (udpSetupLog E o u sa).filter Event.isClose = [] ∧
    (udpSetupLog E o u sa).filter Event.isSocket = [.c_socket .SOCK_DGRAM u] := by
  unfold udpSetupLog
  split <;>
    simp [Event.isSendto, Event.isRecvfrom, Event.isConnect, Event.isClose, Event.isSocket]

theorem connectLog_counts (E : Env P) (o : NetOS) (u : Nat) (h : Int) (sa : SockAddrIn)
    (r : Int → Int) :
    (connectLog E o u h sa r).countP Event.isSendto = 0 ∧
    (connectLog E o u h sa r).countP Event.isRecvfrom = 0 ∧
    (connectLog E o u h sa r).filter Event.isConnect =
      [.c_connect h
        (sockAddrOf E (sockAddrOf E sa INADDR_ANY E.TCP_PORT) (ntohl E sa.sin_addr) E.TCP_PORT)
        (r o.connect)] ∧
    (connectLog E o u h sa r).filter Event.isClose = [.c_close u 0] ∧
    (connectLog E o u h sa r).filter Event.isSocket = [.c_socket .SOCK_STREAM h] ∧
    (connectLog E o u h sa r).filter Event.isBind =
      [.c_bind h (sockAddrOf E sa INADDR_ANY E.TCP_PORT) (r o.tcpBind)] := by
  unfold connectLog
  split <;>
    simp [Event.isSendto, Event.isRecvfrom, Event.isConnect, Event.isClose, Event.isSocket,
      Event.isBind]

/-- The state `OrionCommOpenNetwork` leaves when the reply arrives in iteration `k + 1` and
the TCP socket is created. -/
theorem OrionCommOpenNetwork_connected (E : Env P) (s : State P) (o : NetOS) (k : Nat)
    (hk : k < 50) (hudp : o.udpSocketOk = true)
    (hs : ∀ i, i < k → (o.probes.getD i ProbeOS.silent).recvfrom ≤ 0)
    (hr : (o.probes.getD k ProbeOS.silent).recvfrom > 0)
    (htcp : o.tcpSocketOk = true) :
    OrionCommOpenNetwork E s o =
      (true,
       { s with
         Handle := (lowestFree (lowestFree s.fds :: s.fds) : Int),
         SockAddr :=
           sockAddrOf E
             (sockAddrOf E (replyAddr E (o.probes.getD k ProbeOS.silent)) INADDR_ANY E.TCP_PORT)
             (ntohl E (replyAddr E (o.probes.getD k ProbeOS.silent)).sin_addr) E.TCP_PORT,
         fds := lowestFree (lowestFree s.fds :: s.fds) :: s.fds,
         owned := lowestFree (lowestFree s.fds :: s.fds) ::
           s.owned.filter (fun n => decide (n ≠ lowestFree s.fds)),
         log := s.log ++ (udpSetupLog E o (lowestFree s.fds) s.SockAddr ++
           (probeLog E (lowestFree s.fds) (E.MakeOrionPacket E.ORION_PKT_CROWN_VERSION 0)
             (k + 1) o.probes ++
            connectLog E o (lowestFree s.fds) (lowestFree (lowestFree s.fds :: s.fds))
              (replyAddr E (o.probes.getD k ProbeOS.silent)) id)) }) := by
  have hfr : ∀ a ∈ s.fds, ¬a = lowestFree s.fds := fun a ha e =>
    lowestFree_not_mem s.fds (e ▸ ha)
  rw [OrionCommOpenNetwork_eq_loop E s o hudp,
    probeLoop_discovers E o (lowestFree s.fds) _ k 50 o.probes (loopStart E o s)
      (by simp [loopStart]) hk hs hr,
    connectToGimbal_ok E o (lowestFree s.fds) _ (by simp [loopStart]) htcp]
  simp [loopStart, List.filter_cons]
  exact hfr

/-- The state `OrionCommOpenNetwork` leaves when the reply arrives in iteration `k + 1` and
the TCP socket cannot be created. -/
theorem OrionCommOpenNetwork_no_tcp (E : Env P) (s : State P) (o : NetOS) (k : Nat)
    (hk : k < 50) (hudp : o.udpSocketOk = true)
    (hs : ∀ i, i < k → (o.probes.getD i ProbeOS.silent).recvfrom ≤ 0)
    (hr : (o.probes.getD k ProbeOS.silent).recvfrom > 0)
    (htcp : o.tcpSocketOk = false) :
    OrionCommOpenNetwork E s o =
      (false,
       { s with
         Handle := -1,
         SockAddr :=
           sockAddrOf E
             (sockAddrOf E (replyAddr E (o.probes.getD k ProbeOS.silent)) INADDR_ANY E.TCP_PORT)
             (ntohl E (replyAddr E (o.probes.getD k ProbeOS.silent)).sin_addr) E.TCP_PORT,
         owned := s.owned.filter (fun n => decide (n ≠ lowestFree s.fds)),
         log := s.log ++ (udpSetupLog E o (lowestFree s.fds) s.SockAddr ++
           (probeLog E (lowestFree s.fds) (E.MakeOrionPacket E.ORION_PKT_CROWN_VERSION 0)
             (k + 1) o.probes ++
            connectLog E o (lowestFree s.fds) (-1)
              (replyAddr E (o.probes.getD k ProbeOS.silent)) (fun _ => -1))) }) := by
  have hfr : ∀ a ∈ s.fds, ¬a = lowestFree s.fds := fun a ha e =>
    lowestFree_not_mem s.fds (e ▸ ha)
  rw [OrionCommOpenNetwork_eq_loop E s o hudp,
    probeLoop_discovers E o (lowestFree s.fds) _ k 50 o.probes (loopStart E o s)
      (by simp [loopStart]) hk hs hr,
    connectToGimbal_fails E o (lowestFree s.fds) _ (by simp [loopStart]) htcp]
  simp [loopStart, List.filter_cons]
  exact hfr

/-- The state `OrionCommOpenNetwork` leaves when none of the 50 iterations gets a reply. -/
theorem OrionCommOpenNetwork_timeout (E : Env P) (s : State P) (o : NetOS)
    (hudp : o.udpSocketOk = true)
    (hs : ∀ i, i < 50 → (o.probes.getD i ProbeOS.silent).recvfrom ≤ 0) :
    ∃ sa, OrionCommOpenNetwork E s o =
      (decide (s.Handle ≠ -1),
       { s with
         SockAddr := sa,
         fds := lowestFree s.fds :: s.fds,
         owned := lowestFree s.fds :: s.owned,
         log := s.log ++ (udpSetupLog E o (lowestFree s.fds) s.SockAddr ++
           probeLog E (lowestFree s.fds) (E.MakeOrionPacket E.ORION_PKT_CROWN_VERSION 0)
             50 o.probes) }) := by
  obtain ⟨sa, hsa⟩ := probeLoop_timeout E o (lowestFree s.fds)
    (E.MakeOrionPacket E.ORION_PKT_CROWN_VERSION 0) 50 o.probes (loopStart E o s)
    (by simp [loopStart]) hs
  refine ⟨sa, ?_⟩
  rw [OrionCommOpenNetwork_eq_loop E s o hudp, hsa]
  simp [loopStart]

/-- A discovery without reply, in every state: 50 probes, 50 reads, no TCP socket, the
UDP socket left open, and the value returned is whether `Handle` differed from -1 before
the call. -/
theorem OrionCommOpenNetwork_timeout_counts (E : Env P) (s : State P) (o : NetOS)
    (hudp : o.udpSocketOk = true)
    (hs : ∀ i, i < 50 → (o.probes.getD i ProbeOS.silent).recvfrom ≤ 0) :
    (OrionCommOpenNetwork E s o).1 = decide (s.Handle ≠ -1) ∧
    (OrionCommOpenNetwork E s o).2.Handle = s.Handle ∧
    (emitted s (OrionCommOpenNetwork E s o).2).countP Event.isSendto = 50 ∧
    (emitted s (OrionCommOpenNetwork E s o).2).countP Event.isRecvfrom = 50 ∧
    (emitted s (OrionCommOpenNetwork E s o).2).filter Event.isSocket
      = [.c_socket .SOCK_DGRAM (lowestFree s.fds)] ∧
    (emitted s (OrionCommOpenNetwork E s o).2).filter Event.isClose = [] ∧
    (OrionCommOpenNetwork E s o).2.isOpen (lowestFree s.fds) = true := by
  obtain ⟨sa, hsa⟩ := OrionCommOpenNetwork_timeout E s o hudp hs
  obtain ⟨p1, p2, -, p4, p5, -⟩ := probeLog_counts E (lowestFree s.fds)
    (E.MakeOrionPacket E.ORION_PKT_CROWN_VERSION 0) 50 o.probes
  obtain ⟨u1, u2, -, u4, u5⟩ := udpSetupLog_counts E o (lowestFree s.fds) s.SockAddr
  rw [hsa]
  refine ⟨rfl, rfl, ?_, ?_, ?_, ?_, ?_⟩
  · simp [emitted, List.countP_append, p1, u1]
  · simp [emitted, List.countP_append, p2, u2]
  · simp [emitted, List.filter_append, p5, u5]
  · simp [emitted, List.filter_append, p4, u4]
  · simp [State.isOpen]

set_option maxRecDepth 200000

/-- Claim C4 evaluated at its failing input.  A serial line is opened (descriptor 3) and closed
again, which leaves `Handle = 3` and no descriptor owned; then `OrionCommOpenNetwork` runs
with the UDP socket created and no reply to any of the 50 probes.  The function sends 50
probes, reads 50 times and creates no TCP socket, as the claim says, but it returns TRUE,
because `Handle` still holds the value of the earlier session. -/
theorem OrionCommOpenNetwork_timeout_reports_stale_handle :
    (OrionCommClose (OrionCommOpenSerial toyState "/dev/ttyUSB0" serialOk).2).Handle = 3 ∧
    (OrionCommClose (OrionCommOpenSerial toyState "/dev/ttyUSB0" serialOk).2).owned = [] ∧
    noGimbal.udpSocketOk = true ∧
    (∀ i, i < 50 → (noGimbal.probes.getD i ProbeOS.silent).recvfrom ≤ 0) ∧
    (emitted (OrionCommClose (OrionCommOpenSerial toyState "/dev/ttyUSB0" serialOk).2)
      (OrionCommOpenNetwork toyEnv
        (OrionCommClose (OrionCommOpenSerial toyState "/dev/ttyUSB0" serialOk).2)
        noGimbal).2).countP Event.isSendto = 50 ∧
    (emitted (OrionCommClose (OrionCommOpenSerial toyState "/dev/ttyUSB0" serialOk).2)
      (OrionCommOpenNetwork toyEnv
        (OrionCommClose (OrionCommOpenSerial toyState "/dev/ttyUSB0" serialOk).2)
        noGimbal).2).countP Event.isRecvfrom = 50 ∧
    (emitted (OrionCommClose (OrionCommOpenSerial toyState "/dev/ttyUSB0" serialOk).2)
      (OrionCommOpenNetwork toyEnv
        (OrionCommClose (OrionCommOpenSerial toyState "/dev/ttyUSB0" serialOk).2)
        noGimbal).2).filter Event.isSocket = [.c_socket .SOCK_DGRAM 3] ∧
    (OrionCommOpenNetwork toyEnv
      (OrionCommClose (OrionCommOpenSerial toyState "/dev/ttyUSB0" serialOk).2)
      noGimbal).1 = true := by
  decide

/-- Claim C5 (discovery succeeds on the `N`-th probe).  For `1 ≤ N ≤ 50` and an IPv4 address
`A`, with `TCP_PORT` a port number (not zero, below 65536): if the UDP socket is created, the
first `N - 1` calls of `recvfrom` return no byte, the `N`-th returns at least one byte from
source address `A`, and the TCP socket is created, then `OrionCommOpenNetwork` returns TRUE
with `Handle` the TCP descriptor, left open; it sends exactly `N` probes and reads exactly
`N` times; it creates the UDP and the TCP socket and no other; the TCP socket is bound to
(`INADDR_ANY`, `TCP_PORT`) and `connect` is called exactly once, on the TCP socket, with the
address (`A`, `TCP_PORT`) in network byte order, which converts back to `A` and `TCP_PORT`;
the only `close` is the one of the UDP socket, which is not open afterwards. -/
theorem OrionCommOpenNetwork_discovers (E : Env P) (s : State P) (o : NetOS) (N A : Nat)
    (hN1 : 1 ≤ N) (hN50 : N ≤ 50) (hA : A < 2 ^ 32)
    (hport : 0 < E.TCP_PORT ∧ E.TCP_PORT < 2 ^ 16)
    (hudp : o.udpSocketOk = true)
    (hsilent : ∀ i, i < N - 1 → (o.probes.getD i ProbeOS.silent).recvfrom ≤ 0)
    (hreply : (o.probes.getD (N - 1) ProbeOS.silent).recvfrom ≥ 1)
    (hsrc : (o.probes.getD (N - 1) ProbeOS.silent).srcAddr = A)
    (htcp : o.tcpSocketOk = true) :
    (OrionCommOpenNetwork E s o).1 = true ∧
    (OrionCommOpenNetwork E s o).2.Handle = (lowestFree (lowestFree s.fds :: s.fds) : Int) ∧
    (OrionCommOpenNetwork E s o).2.isOpen (OrionCommOpenNetwork E s o).2.Handle = true ∧
    (emitted s (OrionCommOpenNetwork E s o).2).countP Event.isSendto = N ∧
    (emitted s (OrionCommOpenNetwork E s o).2).countP Event.isRecvfrom = N ∧
    (emitted s (OrionCommOpenNetwork E s o).2).filter Event.isSocket
      = [.c_socket .SOCK_DGRAM (lowestFree s.fds),
         .c_socket .SOCK_STREAM (lowestFree (lowestFree s.fds :: s.fds))] ∧
    (emitted s (OrionCommOpenNetwork E s o).2).filter Event.isBind
      = [.c_bind (lowestFree s.fds) (sockAddrOf E s.SockAddr INADDR_ANY E.UDP_IN_PORT) o.udpBind,
         .c_bind (lowestFree (lowestFree s.fds :: s.fds))
           { sin_family := AF_INET, sin_port := htons E E.TCP_PORT, sin_addr := htonl E INADDR_ANY }
           o.tcpBind] ∧
    (emitted s (OrionCommOpenNetwork E s o).2).filter Event.isConnect
      = [.c_connect (lowestFree (lowestFree s.fds :: s.fds))
           { sin_family := AF_INET, sin_port := htons E E.TCP_PORT, sin_addr := htonl E A }
           o.connect] ∧
    ntohl E (htonl E A) = A ∧ ntohs E (htons E E.TCP_PORT) = E.TCP_PORT ∧
    (emitted s (OrionCommOpenNetwork E s o).2).filter Event.isClose
      = [.c_close (lowestFree s.fds) 0] ∧
    (OrionCommOpenNetwork E s o).2.isOpen (lowestFree s.fds) = false := by
  have hfr := lowestFree_not_mem s.fds
  have hfr2 := lowestFree_not_mem (lowestFree s.fds :: s.fds)
  have hne : lowestFree s.fds ≠ lowestFree (lowestFree s.fds :: s.fds) := by
    intro e; apply hfr2; rw [← e]; exact List.mem_cons_self _ _
  have hr : (o.probes.getD (N - 1) ProbeOS.silent).recvfrom > 0 := by omega
  have hconn := OrionCommOpenNetwork_connected E s o (N - 1) (by omega) hudp hsilent hr htcp
  have hN : N - 1 + 1 = N := by omega
  obtain ⟨p1, p2, p3, p4, p5, p6⟩ := probeLog_counts E (lowestFree s.fds)
    (E.MakeOrionPacket E.ORION_PKT_CROWN_VERSION 0) N o.probes
  obtain ⟨u1, u2, u3, u4, u5⟩ := udpSetupLog_counts E o (lowestFree s.fds) s.SockAddr
  obtain ⟨c1, c2, c3, c4, c5, c6⟩ := connectLog_counts E o (lowestFree s.fds)
    (lowestFree (lowestFree s.fds :: s.fds))
    (replyAddr E (o.probes.getD (N - 1) ProbeOS.silent)) id
  have haddr : ntohl E (replyAddr E (o.probes.getD (N - 1) ProbeOS.silent)).sin_addr = A := by
    simp only [replyAddr, hsrc]; exact ntohl_htonl E A hA
  have hANY : INADDR_ANY < 2 ^ 32 := by unfold INADDR_ANY; norm_num
  rw [haddr, sockAddrOf_port E _ A E.TCP_PORT hport.1 hport.2 hA] at c3
  rw [sockAddrOf_port E _ INADDR_ANY E.TCP_PORT hport.1 hport.2 hANY] at c6
  have hbind : (udpSetupLog E o (lowestFree s.fds) s.SockAddr).filter Event.isBind
      = [.c_bind (lowestFree s.fds) (sockAddrOf E s.SockAddr INADDR_ANY E.UDP_IN_PORT)
          o.udpBind] := by
    unfold udpSetupLog
    split <;> simp [Event.isBind]
  rw [hN] at hconn
  generalize o.probes.getD (N - 1) ProbeOS.silent = q at *
  rw [hconn]
  refine ⟨rfl, rfl, ?_, ?_, ?_, ?_, ?_, ?_, ntohl_htonl E A hA,
    ntohs_htons E E.TCP_PORT hport.2, ?_, ?_⟩
  · simp [State.isOpen]
  · simp [emitted, List.countP_append, p1, u1, c1]
  · simp [emitted, List.countP_append, p2, u2, c2]
  · simp [emitted, List.filter_append, p5, u5, c5]
  · simp [emitted, List.filter_append, p6, hbind, c6]
  · simp [emitted, List.filter_append, p3, u3, c3]
  · simp [emitted, List.filter_append, p4, u4, c4]
  · simp [State.isOpen, hfr, hne]

/-- Claim C5 at the input of the specification: the gimbal at 10.0.0.5 (167772165) answers the
third probe; the TCP socket is descriptor 4 and is connected to 10.0.0.5 on port 8747. -/
theorem OrionCommOpenNetwork_discovers_witness :
    (1 ≤ 3 ∧ 3 ≤ 50 ∧ 167772165 < 2 ^ 32 ∧
      (0 < toyEnv.TCP_PORT ∧ toyEnv.TCP_PORT < 2 ^ 16) ∧
      gimbalOnThird.udpSocketOk = true ∧
      (∀ i, i < 3 - 1 → (gimbalOnThird.probes.getD i ProbeOS.silent).recvfrom ≤ 0) ∧
      (gimbalOnThird.probes.getD (3 - 1) ProbeOS.silent).recvfrom ≥ 1 ∧
      (gimbalOnThird.probes.getD (3 - 1) ProbeOS.silent).srcAddr = 167772165 ∧
      gimbalOnThird.tcpSocketOk = true) ∧
    (OrionCommOpenNetwork toyEnv toyState gimbalOnThird).1 = true ∧
    (OrionCommOpenNetwork toyEnv toyState gimbalOnThird).2.Handle = 4 ∧
    (emitted toyState (OrionCommOpenNetwork toyEnv toyState gimbalOnThird).2).countP
      Event.isSendto = 3 ∧
    (emitted toyState (OrionCommOpenNetwork toyEnv toyState gimbalOnThird).2).filter
      Event.isConnect
      = [.c_connect 4
           { sin_family := AF_INET, sin_port := htons toyEnv 8747,
             sin_addr := htonl toyEnv 167772165 } 0] :=
  have h := OrionCommOpenNetwork_discovers toyEnv toyState gimbalOnThird 3 167772165
    (by decide) (by decide) (by decide) (by decide) (by decide) (by decide) (by decide)
    (by decide) (by decide)
  ⟨by decide, h.1, h.2.1, h.2.2.2.1, h.2.2.2.2.2.2.2.1⟩

/-- Claim C6 fails as stated: the gimbal replies to the first probe, the TCP `bind` and the TCP
`connect` both return -1, and `OrionCommOpenNetwork` returns TRUE. -/
theorem OrionCommOpenNetwork_connect_failure_returns_true :
    (connectRefused.probes.getD 0 ProbeOS.silent).recvfrom > 0 ∧
    connectRefused.tcpBind = -1 ∧ connectRefused.connect = -1 ∧
    (emitted toyState (OrionCommOpenNetwork toyEnv toyState connectRefused).2).filter
        Event.isConnect
      = [.c_connect 4 { sin_family := AF_INET, sin_port := htons toyEnv 8747,
                        sin_addr := htonl toyEnv 167772165 } (-1)] ∧
    (OrionCommOpenNetwork toyEnv toyState connectRefused).1 = true := by
  decide

/-- Claim C6 as amended.  In every run in which the UDP socket is created and a reply arrives
on the `N`-th probe (`1 ≤ N ≤ 50`), `OrionCommOpenNetwork` returns TRUE exactly when the TCP
socket is created, whatever `bind` and `connect` return: when the socket is created, `bind`
and `connect` are called on it, return what the operating system answers (`o.tcpBind`,
`o.connect`), and their values do not enter the result. -/
theorem OrionCommOpenNetwork_success_iff_tcp_socket (E : Env P) (s : State P) (o : NetOS)
    (N : Nat) (hN1 : 1 ≤ N) (hN50 : N ≤ 50)
    (hudp : o.udpSocketOk = true)
    (hsilent : ∀ i, i < N - 1 → (o.probes.getD i ProbeOS.silent).recvfrom ≤ 0)
    (hreply : (o.probes.getD (N - 1) ProbeOS.silent).recvfrom ≥ 1) :
    ((OrionCommOpenNetwork E s o).1 = true ↔ o.tcpSocketOk = true) ∧
    (o.tcpSocketOk = true →
      (∃ a, .c_bind (lowestFree (lowestFree s.fds :: s.fds)) a o.tcpBind
          ∈ emitted s (OrionCommOpenNetwork E s o).2) ∧
      (∃ a, (emitted s (OrionCommOpenNetwork E s o).2).filter Event.isConnect
          = [.c_connect (lowestFree (lowestFree s.fds :: s.fds)) a o.connect])) := by
  have hr : (o.probes.getD (N - 1) ProbeOS.silent).recvfrom > 0 := by omega
  by_cases htcp : o.tcpSocketOk = true
  · have hconn := OrionCommOpenNetwork_connected E s o (N - 1) (by omega) hudp hsilent hr htcp
    obtain ⟨-, -, p3, -, -, -⟩ := probeLog_counts E (lowestFree s.fds)
      (E.MakeOrionPacket E.ORION_PKT_CROWN_VERSION 0) (N - 1 + 1) o.probes
    obtain ⟨-, -, u3, -, -⟩ := udpSetupLog_counts E o (lowestFree s.fds) s.SockAddr
    obtain ⟨-, -, c3, -, -, c6⟩ := connectLog_counts E o (lowestFree s.fds)
      (lowestFree (lowestFree s.fds :: s.fds))
      (replyAddr E (o.probes.getD (N - 1) ProbeOS.silent)) id
    generalize o.probes.getD (N - 1) ProbeOS.silent = q at *
    rw [hconn]
    refine ⟨by simp [htcp], fun _ => ⟨?_, ?_⟩⟩
    · refine ⟨sockAddrOf E (replyAddr E q) INADDR_ANY E.TCP_PORT, ?_⟩
      have hmem : Event.c_bind (lowestFree (lowestFree s.fds :: s.fds))
          (sockAddrOf E (replyAddr E q) INADDR_ANY E.TCP_PORT) (id o.tcpBind)
          ∈ (connectLog E o (lowestFree s.fds) (lowestFree (lowestFree s.fds :: s.fds))
              (replyAddr E q) id).filter Event.isBind := by
        rw [c6]; exact List.mem_singleton.2 rfl
      have hmem2 := (List.mem_filter.1 hmem).1
      simp only [emitted, List.drop_left, id] at hmem2 ⊢
      exact List.mem_append_right _ (List.mem_append_right _ hmem2)
    · refine ⟨sockAddrOf E (sockAddrOf E (replyAddr E q) INADDR_ANY E.TCP_PORT)
        (ntohl E (replyAddr E q).sin_addr) E.TCP_PORT, ?_⟩
      simp only [emitted, List.drop_left, List.filter_append, p3, u3, c3, List.nil_append, id]
  · have htcp' : o.tcpSocketOk = false := by simpa using htcp
    rw [OrionCommOpenNetwork_no_tcp E s o (N - 1) (by omega) hudp hsilent hr htcp']
    simp [htcp']

/-- Claim C6 as amended, at a concrete input: reply to the first probe, `bind` and `connect`
fail, the TCP socket is created and the function returns TRUE. -/
theorem OrionCommOpenNetwork_success_iff_tcp_socket_witness :
    (1 ≤ 1 ∧ 1 ≤ 50 ∧ connectRefused.udpSocketOk = true ∧
      (∀ i, i < 1 - 1 → (connectRefused.probes.getD i ProbeOS.silent).recvfrom ≤ 0) ∧
      (connectRefused.probes.getD (1 - 1) ProbeOS.silent).recvfrom ≥ 1) ∧
    ((OrionCommOpenNetwork toyEnv toyState connectRefused).1 = true ↔
      connectRefused.tcpSocketOk = true) :=
  ⟨by decide,
   (OrionCommOpenNetwork_success_iff_tcp_socket toyEnv toyState connectRefused 1
     (by decide) (by decide) (by decide) (by decide) (by decide)).1⟩

/-! ### One handle at a time -/

theorem not_timesOut (o : NetOS) (h : o.timesOut = false) :
    o.udpSocketOk = false ∨
    (o.udpSocketOk = true ∧ ∃ k, k < 50 ∧
      (∀ i, i < k → (o.probes.getD i ProbeOS.silent).recvfrom ≤ 0) ∧
      (o.probes.getD k ProbeOS.silent).recvfrom > 0) := by
  by_cases hu : o.udpSocketOk = true
  · right
    refine ⟨hu, ?_⟩
    have hex : ∃ k, k < 50 ∧ (o.probes.getD k ProbeOS.silent).recvfrom > 0 := by
      by_contra hne
      have hall : ∀ i, i < 50 → (o.probes.getD i ProbeOS.silent).recvfrom ≤ 0 := by
        intro i hi
        by_contra hc
        exact hne ⟨i, hi, by omega⟩
      have : o.timesOut = true := by
        simp only [NetOS.timesOut, hu, Bool.true_and, List.all_eq_true, List.mem_range,
          decide_eq_true_eq]
        exact hall
      rw [h] at this
      exact absurd this (by simp)
    refine ⟨Nat.find hex, (Nat.find_spec hex).1, ?_, (Nat.find_spec hex).2⟩
    intro i hi
    by_contra hc
    exact Nat.find_min hex hi ⟨lt_trans hi (Nat.find_spec hex).1, by omega⟩
  · left
    simpa using hu

theorem oneHandle_close (s : State P) (h : OneHandle s) : OneHandle (OrionCommClose s) := by
  obtain ⟨h1, h2⟩ := h
  unfold OrionCommClose sys_close
  by_cases ho : s.isOpen s.Handle = true
  · rw [if_pos ho]
    have hnil : s.owned.filter (fun n => decide (n ≠ s.Handle.toNat)) = [] := by
      rw [List.filter_eq_nil_iff]
      intro a ha
      have := h2 a ha
      simp [this]
    simp only [OneHandle, State.emit]
    rw [hnil]
    simp
  · rw [if_neg ho]
    exact ⟨h1, h2⟩

theorem oneHandle_openSerial (s : State P) (pPath : String) (o : SerialOS)
    (h : s.owned = []) : OneHandle (OrionCommOpenSerial s pPath o).2 := by
  by_cases h0 : o.openOk = true
  · by_cases h1 : o.isatty = 0
    · rw [openSerial_not_tty s pPath o h0 h1]; simp [OneHandle, serialFailed, h]
    · by_cases h2 : o.tcgetattr = 0
      · by_cases h3 : o.tcsetattr = 0
        · rw [openSerial_succeeds s pPath o h0 h1 h2 h3]; simp [OneHandle, h]
        · rw [openSerial_setattr_fails s pPath o h0 h1 h2 h3]; simp [OneHandle, serialFailed, h]
      · rw [openSerial_getattr_fails s pPath o h0 h1 h2]; simp [OneHandle, serialFailed, h]
  · have h0' : o.openOk = false := by simpa using h0
    rw [openSerial_open_fails s pPath o h0']; simp [OneHandle, h]

theorem oneHandle_openNetwork (E : Env P) (s : State P) (o : NetOS)
    (h : s.owned = []) (ht : o.timesOut = false) :
    OneHandle (OrionCommOpenNetwork E s o).2 := by
  rcases not_timesOut o ht with hu | ⟨hu, k, hk, hs, hr⟩
  · rw [OrionCommOpenNetwork_no_socket E s o hu]; simp [OneHandle, State.emit, h]
  · by_cases htcp : o.tcpSocketOk = true
    · rw [OrionCommOpenNetwork_connected E s o k hk hu hs hr htcp]; simp [OneHandle, h]
    · have htcp' : o.tcpSocketOk = false := by simpa using htcp
      rw [OrionCommOpenNetwork_no_tcp E s o k hk hu hs hr htcp']; simp [OneHandle, h]

/-- Every sequence of calls in which each Open starts without an open descriptor and no
discovery times out keeps at most one descriptor, the one in `Handle`. -/
theorem oneHandle_run (E : Env P) (cs : List Call) (s : State P)
    (h : OneHandle s) (hd : disciplined E s cs = true) : OneHandle (run E s cs) := by
  induction cs generalizing s with
  | nil => exact h
  | cons c cs ih =>
    cases c with
    | close =>
      simp only [disciplined] at hd
      exact ih _ (oneHandle_close s h) hd
    | openSerial pPath o =>
      simp only [disciplined, Bool.and_eq_true, decide_eq_true_eq] at hd
      exact ih _ (oneHandle_openSerial s pPath o hd.1) hd.2
    | openNetwork o =>
      simp only [disciplined, Bool.and_eq_true, decide_eq_true_eq, Bool.not_eq_true'] at hd
      exact ih _ (oneHandle_openNetwork E s o hd.1.1 hd.1.2) hd.2

/-- Claim C7 fails as stated: two successful calls of `OrionCommOpenSerial` in a row leave the
descriptors 3 and 4 both open and owned by the module, with `Handle = 4`; the earlier handle
is not closed. -/
theorem two_opens_leave_two_descriptors :
    (run toyEnv toyState
      [.openSerial "/dev/ttyUSB0" serialOk, .openSerial "/dev/ttyUSB1" serialOk]).owned = [4, 3] ∧
    (run toyEnv toyState
      [.openSerial "/dev/ttyUSB0" serialOk, .openSerial "/dev/ttyUSB1" serialOk]).Handle = 4 ∧
    (run toyEnv toyState
      [.openSerial "/dev/ttyUSB0" serialOk, .openSerial "/dev/ttyUSB1" serialOk]).isOpen 3 = true ∧
    ¬ OneHandle (run toyEnv toyState
      [.openSerial "/dev/ttyUSB0" serialOk, .openSerial "/dev/ttyUSB1" serialOk]) := by
  refine ⟨by decide, by decide, by decide, ?_⟩
  intro h
  have := h.1
  revert this
  decide

/-- Claim C7 as amended.  From the freshly loaded module, after every sequence of
`OrionCommOpenSerial`, `OrionCommOpenNetwork` and `OrionCommClose` calls, with any answers
of the operating system, in which every Open is called while the module holds no open
descriptor and no discovery times out, the module holds at most one open descriptor and it
is the one stored in `Handle`. -/
theorem one_handle_when_opens_follow_close (E : Env P) (fds : List Nat) (cs : List Call)
    (hd : disciplined E (State.init E fds) cs = true) :
    (run E (State.init E fds) cs).owned.length ≤ 1 ∧
    ∀ fd ∈ (run E (State.init E fds) cs).owned,
      (run E (State.init E fds) cs).Handle = (fd : Int) :=
  oneHandle_run E cs (State.init E fds) (by simp [OneHandle, State.init]) hd

/-- Claim C7 as amended, at a concrete sequence: open serial, close, discover and connect,
close, a failing open, open serial. -/
theorem one_handle_when_opens_follow_close_witness :
    disciplined toyEnv (State.init toyEnv [0, 1, 2])
      [.openSerial "/dev/ttyUSB0" serialOk, .close, .openNetwork gimbalOnThird, .close,
       .openSerial "/dev/null" notSerial, .openSerial "/dev/ttyUSB0" serialOk] = true ∧
    ((run toyEnv (State.init toyEnv [0, 1, 2])
      [.openSerial "/dev/ttyUSB0" serialOk, .close, .openNetwork gimbalOnThird, .close,
       .openSerial "/dev/null" notSerial, .openSerial "/dev/ttyUSB0" serialOk]).owned.length ≤ 1 ∧
    ∀ fd ∈ (run toyEnv (State.init toyEnv [0, 1, 2])
      [.openSerial "/dev/ttyUSB0" serialOk, .close, .openNetwork gimbalOnThird, .close,
       .openSerial "/dev/null" notSerial, .openSerial "/dev/ttyUSB0" serialOk]).owned,
      (run toyEnv (State.init toyEnv [0, 1, 2])
      [.openSerial "/dev/ttyUSB0" serialOk, .close, .openNetwork gimbalOnThird, .close,
       .openSerial "/dev/null" notSerial, .openSerial "/dev/ttyUSB0" serialOk]).Handle
        = (fd : Int)) :=
  ⟨by decide, one_handle_when_opens_follow_close toyEnv [0, 1, 2] _ (by decide)⟩

end OrionComm
